import Mathlib

/-!
# Snake game state engine (src/main.cpp)

Shallow embedding of the game logic of `src/main.cpp`: the global game state, `init_game`,
`update_game`, `handle_input` and `spawnFood`.

Modelling conventions.

* The globals `direction`, `nextDirection`, `snakeBody`, `foodPosition`, `gameOver`, `score` and
  `lastUpdateTime` are the fields of `GameState`; every function passes the state explicitly.
* `glm::vec2` components only ever hold integer values in the program (they are produced by
  `GRID_SIZE / 2.0f`, by `rand() % GRID_SIZE` and by `+= 1` or `-= 1`), on which float arithmetic
  and comparison are exact; a cell is a pair of `Int`.
* `std::deque<glm::vec2>` is a `List vec2`, front first: `push_front` is `::`, `pop_back` is
  `List.dropLast`, `front()` is `List.head?`.
* Clock values (`double`) are exact rationals; rounding of the subtraction of line 151 is not
  modelled. `UPDATE_INTERVAL` is the exact value of the literal `0.15f`.
* Touch coordinates and the offsets `dX`, `dY` of `handle_input` are binary32 values (`float`
  below): finite values are integer multiples of 2^-149, and every operation of lines 199-212
  rounds as IEEE 754 does, to nearest with ties to even.
* The results of the calls of `rand()` made during one call are passed as a `List Nat`, consumed
  front first. A function answers `none` when it does not return a state: `spawnFood` has rejected
  every sample it was given (the loop is still running), or `front()` was read on an empty deque.
* `score++` on `int` is truncated to 32 bits (two's complement).
-/

namespace VulkanSnake

/-- Source: `const int GRID_SIZE = 20;`. -/
def GRID_SIZE : Int := 20

/-- Source: `const float UPDATE_INTERVAL = 0.15f;`, the binary32 value nearest to 0.15,
which is 5033165 / 2^25. -/
def UPDATE_INTERVAL : ℚ := 5033165 / 33554432

/-- Source: `enum Direction { UP, DOWN, LEFT, RIGHT };`. -/
inductive Direction where
  | UP
  | DOWN
  | LEFT
  | RIGHT
deriving DecidableEq, Repr

/-- A grid cell, `glm::vec2` holding integer values. -/
structure vec2 where
  x : Int
  y : Int
deriving DecidableEq, Repr

/-- The global game state of `main.cpp` (lines 36-42). -/
structure GameState where
  direction : Direction
  nextDirection : Direction
  snakeBody : List vec2
  foodPosition : vec2
  gameOver : Bool
  score : Int
  lastUpdateTime : ℚ
deriving DecidableEq

/-- The state of the globals at program start (static initialisation, lines 36-42). -/
def initialGlobals : GameState :=
  { direction := Direction.RIGHT
    nextDirection := Direction.RIGHT
    snakeBody := []
    foodPosition := ⟨0, 0⟩
    gameOver := false
    score := 0
    lastUpdateTime := 0 }

/-- The value an `int` holds after an arithmetic result `n` is truncated to 32 bits. -/
def wrapInt32 (n : Int) : Int := (n + 2147483648) % 4294967296 - 2147483648

/-- The scan `for (const auto& segment : snakeBody) if (p == segment) { ...; break; }` used by
both `update_game` (lines 167-172) and `spawnFood` (lines 223-228): does the loop body fire? -/
def hitsSegment (p : vec2) : List vec2 → Bool
  | [] => false
  | segment :: rest => if p = segment then true else hitsSegment p rest

/-- Source: `spawnFood` (lines 218-230). Each round of the do-while loop draws two values of
`rand()`, stores the cell in `foodPosition` and scans the snake; the loop ends at the first
round whose scan does not fire. -/
def spawnFood : List Nat → GameState → Option GameState
  | r1 :: r2 :: rest, s =>
    let s1 := { s with foodPosition := ⟨(r1 : Int) % GRID_SIZE, (r2 : Int) % GRID_SIZE⟩ }
    if hitsSegment s1.foodPosition s1.snakeBody then spawnFood rest s1 else some s1
  | _, _ => none

/-- Source: `init_game` (lines 136-144). -/
def init_game (rs : List Nat) (s : GameState) : Option GameState :=
  spawnFood rs
    { s with
      snakeBody := [⟨GRID_SIZE / 2, GRID_SIZE / 2⟩]
      direction := Direction.RIGHT
      nextDirection := Direction.RIGHT
      score := 0
      gameOver := false }

/-- The `switch (direction)` of `update_game` (lines 156-161) applied to a copy of the head. -/
def moveHead (d : Direction) (front : vec2) : vec2 :=
  match d with
  | Direction.UP => { front with y := front.y - 1 }
  | Direction.DOWN => { front with y := front.y + 1 }
  | Direction.LEFT => { front with x := front.x - 1 }
  | Direction.RIGHT => { front with x := front.x + 1 }

/-- The boundary test of `update_game` (line 163). -/
def outOfGrid (p : vec2) : Bool :=
  decide (p.x < 0) || decide (p.x ≥ GRID_SIZE) || decide (p.y < 0) || decide (p.y ≥ GRID_SIZE)

/-- Source: `update_game` (lines 146-184), at the clock value `currentTime`. The static
`lastTime` is written and never read, and is left out. -/
def update_game (rs : List Nat) (currentTime : ℚ) (s : GameState) : Option GameState :=
  if !s.gameOver && decide (currentTime - s.lastUpdateTime > UPDATE_INTERVAL) then
    let s1 := { s with lastUpdateTime := currentTime, direction := s.nextDirection }
    match s1.snakeBody.head? with
    | none => none
    | some front =>
      let newHead := moveHead s1.direction front
      let s2 := if outOfGrid newHead then { s1 with gameOver := true } else s1
      let s3 := if hitsSegment newHead s2.snakeBody then { s2 with gameOver := true } else s2
      if !s3.gameOver then
        let s4 := { s3 with snakeBody := newHead :: s3.snakeBody }
        if newHead = s4.foodPosition then
          spawnFood rs { s4 with score := wrapInt32 (s4.score + 1) }
        else
          some { s4 with snakeBody := s4.snakeBody.dropLast }
      else
        some s3
  else
    some s

/-- A binary32 value, the C++ type `float`: a finite value `k * 2^-149` (every finite binary32
value is such a multiple, with `|k| < 2^277` and at most 24 significant bits), an infinity, or
a NaN. The two zeros are one value here; no operation of `handle_input` tells them apart. -/
inductive float where
  | finite (k : Int)
  | inf (negative : Bool)
  | nan
deriving DecidableEq, Repr

/-- The position of the highest set bit of `n`, for `0 < n < 2^512`, found by bisection; 0 for
`n = 0`. -/
def floorLog2 (n : Nat) : Nat :=
  [256, 128, 64, 32, 16, 8, 4, 2, 1].foldl
    (fun acc step => if n >>> (acc + step) = 0 then acc else acc + step) 0

/-- The number of significant bits of `n`. -/
def bitLength (n : Nat) : Nat := if n = 0 then 0 else floorLog2 n + 1

/-- A magnitude, in units of 2^-149, rounded to the 24 significant bits of binary32: to
nearest, ties to even. Magnitudes of at most 24 bits (subnormals and the lowest binade) are
exact. -/
def roundSig24 (n : Nat) : Nat :=
  if bitLength n ≤ 24 then n
  else
    let unit := 2 ^ (bitLength n - 24)
    let q := n / unit
    let r := n % unit
    if 2 * r > unit ∨ (2 * r = unit ∧ q % 2 = 1) then (q + 1) * unit else q * unit

/-- The binary32 result of an operation whose exact result is `k * 2^-149`: the magnitude is
rounded, and a rounded magnitude of 2^128 = 2^277 units or more overflows to the infinity of
the same sign. -/
def float.round (k : Int) : float :=
  let m := roundSig24 k.natAbs
  if bitLength m > 277 then float.inf (decide (k < 0))
  else float.finite (if k < 0 then -(m : Int) else (m : Int))

/-- The conversion of an `int32_t` to `float` (the `width` of `width / 2.0f`). -/
def int_to_float (n : Int) : float := float.round (n * 2 ^ 149)

/-- The division `a / 2.0f`. It is exact unless `a` is an odd multiple of 2^-149, which then
rounds to the even neighbour. -/
def float.halve : float → float
  | float.finite k =>
    let q := k.natAbs / 2
    let m := if k.natAbs % 2 = 1 ∧ q % 2 = 1 then q + 1 else q
    float.finite (if k < 0 then -(m : Int) else (m : Int))
  | float.inf negative => float.inf negative
  | float.nan => float.nan

/-- The subtraction `a - b` of two `float`s. -/
def float.sub : float → float → float
  | float.finite a, float.finite b => float.round (a - b)
  | float.nan, _ => float.nan
  | _, float.nan => float.nan
  | float.inf s, float.inf t => if s = t then float.nan else float.inf s
  | float.inf s, float.finite _ => float.inf s
  | float.finite _, float.inf t => float.inf (!t)

/-- The call `abs(a)` on a `float`: the overload of the C++ library of the NDK that returns
the absolute value of the float. -/
def float.abs : float → float
  | float.finite k => float.finite (k.natAbs : Int)
  | float.inf _ => float.inf false
  | float.nan => float.nan

/-- The comparison `a > b` of two `float`s: false as soon as one of them is a NaN. -/
def float.gt : float → float → Bool
  | float.finite a, float.finite b => decide (a > b)
  | float.nan, _ => false
  | _, float.nan => false
  | float.inf s, float.inf t => !s && t
  | float.inf s, float.finite _ => !s
  | float.finite _, float.inf t => t

/-- The real number a `float` stands for, when it is finite. -/
def float.value : float → Option ℚ
  | float.finite k => some ((k : ℚ) / 2 ^ 149)
  | _ => none

/-- The part of an `AInputEvent` that `handle_input` reads: `AMotionEvent_getAction`,
`AMotionEvent_getX(event, 0)` and `AMotionEvent_getY(event, 0)`. -/
structure AInputEvent where
  action : Int
  x : float
  y : float

/-- The part of `app->window` that `handle_input` reads: `ANativeWindow_getWidth` and
`ANativeWindow_getHeight`. -/
structure ANativeWindow where
  width : Int
  height : Int

/-- The NDK constant: `AMOTION_EVENT_ACTION_DOWN = 0`. -/
def AMOTION_EVENT_ACTION_DOWN : Int := 0

/-- Source: `handle_input` (lines 187-216). `rs` holds the results of `rand()` for the call of
`init_game` on a press after game over. Lines 199-200 compute `dX` and `dY` in binary32: the
`int32_t` is converted to `float`, divided by `2.0f` and subtracted from the coordinate. The
`0` of `dX > 0` is converted to the float zero. -/
def handle_input (rs : List Nat) (window : ANativeWindow) (event : AInputEvent)
    (s : GameState) : Option GameState :=
  if event.action = AMOTION_EVENT_ACTION_DOWN then
    if s.gameOver then
      init_game rs s
    else
      let dX : float := float.sub event.x (float.halve (int_to_float window.width))
      let dY : float := float.sub event.y (float.halve (int_to_float window.height))
      if float.gt (float.abs dX) (float.abs dY) then
        if float.gt dX (float.finite 0) then
          if s.direction ≠ Direction.LEFT then some { s with nextDirection := Direction.RIGHT }
          else some s
        else
          if s.direction ≠ Direction.RIGHT then some { s with nextDirection := Direction.LEFT }
          else some s
      else
        if float.gt dY (float.finite 0) then
          if s.direction ≠ Direction.UP then some { s with nextDirection := Direction.DOWN }
          else some s
        else
          if s.direction ≠ Direction.DOWN then some { s with nextDirection := Direction.UP }
          else some s
  else
    some s

/-- The main loop of `android_main` (lines 113-133) seen from the game state: one call of
`update_game` per iteration, each with its own clock value and its own results of `rand()`. -/
def runTicks : List (List Nat × ℚ) → GameState → Option GameState
  | [], s => some s
  | (rs, currentTime) :: later, s => (update_game rs currentTime s).bind (runTicks later)

/-- The number of clock values of a sequence that pass the interval test of line 151, each
passing value becoming the new `lastUpdateTime` (as line 152 does while the game is running). -/
def qualifyingTicks (last : ℚ) : List ℚ → Nat
  | [] => 0
  | t :: later =>
    if t - last > UPDATE_INTERVAL then qualifyingTicks t later + 1 else qualifyingTicks last later

/-- The states the program can be in after `init_game` has returned: `android_main` calls
`init_game` once and then only `update_game` (from the main loop) and `handle_input` (from the
input callback) touch the game state. The prior state of `init_game`, the clock values, the
events, the window sizes and the results of `rand()` are arbitrary. -/
inductive Reachable : GameState → Prop
  | init (s0 s : GameState) (rs : List Nat) :
      init_game rs s0 = some s → Reachable s
  | tick (s s1 : GameState) (rs : List Nat) (currentTime : ℚ) :
      Reachable s → update_game rs currentTime s = some s1 → Reachable s1
  | input (s s1 : GameState) (rs : List Nat) (window : ANativeWindow) (event : AInputEvent) :
      Reachable s → handle_input rs window event s = some s1 → Reachable s1

/-- A cell of the grid: both coordinates in `[0, GRID_SIZE)`. -/
def inGrid (p : vec2) : Prop :=
  0 ≤ p.x ∧ p.x < GRID_SIZE ∧ 0 ≤ p.y ∧ p.y < GRID_SIZE

instance decidableInGrid (p : vec2) : Decidable (inGrid p) := by
  unfold inGrid
  infer_instance

/-- The invariant of the running game: a non-empty snake of distinct grid cells, the food on a
free grid cell, and the score counting the cells grown. -/
structure WellFormed (s : GameState) : Prop where
  nonempty : s.snakeBody ≠ []
  nodup : s.snakeBody.Nodup
  snakeInGrid : ∀ c ∈ s.snakeBody, inGrid c
  foodInGrid : inGrid s.foodPosition
  foodFree : s.foodPosition ∉ s.snakeBody
  scoreLength : s.score + 1 = s.snakeBody.length

/-- The opposite direction (spec: "the reverse of the currently-applied direction"). -/
def reverse : Direction → Direction
  | Direction.UP => Direction.DOWN
  | Direction.DOWN => Direction.UP
  | Direction.LEFT => Direction.RIGHT
  | Direction.RIGHT => Direction.LEFT

/-- The offset `dX` of a press from the window centre, as line 199 computes it. -/
def offsetX (window : ANativeWindow) (event : AInputEvent) : float :=
  float.sub event.x (float.halve (int_to_float window.width))

/-- The offset `dY` of a press from the window centre, as line 200 computes it. -/
def offsetY (window : ANativeWindow) (event : AInputEvent) : float :=
  float.sub event.y (float.halve (int_to_float window.height))

/-- The direction a press stands for: the branch of lines 202-214 that the offsets `dX`, `dY`
of the press from the window centre select. -/
def pressDirection (window : ANativeWindow) (event : AInputEvent) : Direction :=
  if float.gt (float.abs (offsetX window event)) (float.abs (offsetY window event)) then
    if float.gt (offsetX window event) (float.finite 0) then Direction.RIGHT else Direction.LEFT
  else
    if float.gt (offsetY window event) (float.finite 0) then Direction.DOWN else Direction.UP

/-- The direction rule of the specification (4.3) read in exact arithmetic: `dX = x - width/2`
and `dY = y - height/2` as rational numbers. -/
def exactDirection (x y : ℚ) (width height : Int) : Direction :=
  let dX : ℚ := x - (width : ℚ) / 2
  let dY : ℚ := y - (height : ℚ) / 2
  if |dX| > |dY| then
    if dX > 0 then Direction.RIGHT else Direction.LEFT
  else
    if dY > 0 then Direction.DOWN else Direction.UP

/-- The state after `init_game` at program start when `rand()` answers 11 and 10: the food
lies right in front of the snake. -/
def demoStart : GameState :=
  { direction := Direction.RIGHT
    nextDirection := Direction.RIGHT
    snakeBody := [⟨10, 10⟩]
    foodPosition := ⟨11, 10⟩
    gameOver := false
    score := 0
    lastUpdateTime := 0 }

/-- The state one tick after `demoStart`, at clock value 1, when `rand()` answers
10, 10, 11, 10, 5, 7: the snake has eaten, two samples were rejected, the food is at (5, 7). -/
def demoFed : GameState :=
  { direction := Direction.RIGHT
    nextDirection := Direction.RIGHT
    snakeBody := [⟨11, 10⟩, ⟨10, 10⟩]
    foodPosition := ⟨5, 7⟩
    gameOver := false
    score := 1
    lastUpdateTime := 1 }

/-- A coiled snake of five cells heading up, with a turn to the right pending: the next head
(6, 5) is the fourth cell of the body, not its tail. -/
def demoCoil : GameState :=
  { direction := Direction.UP
    nextDirection := Direction.RIGHT
    snakeBody := [⟨5, 5⟩, ⟨5, 6⟩, ⟨6, 6⟩, ⟨6, 5⟩, ⟨6, 4⟩]
    foodPosition := ⟨0, 0⟩
    gameOver := false
    score := 4
    lastUpdateTime := 0 }

/-- A window of 1080 by 1920 pixels. -/
def demoWindow : ANativeWindow := { width := 1080, height := 1920 }

/-- A press right of the centre of `demoWindow`, at mid height: (900, 960). -/
def pressRight : AInputEvent :=
  { action := AMOTION_EVENT_ACTION_DOWN, x := int_to_float 900, y := int_to_float 960 }

/-- A press left of the centre of `demoWindow`, at mid height: (100, 960). -/
def pressLeft : AInputEvent :=
  { action := AMOTION_EVENT_ACTION_DOWN, x := int_to_float 100, y := int_to_float 960 }

/-- A press below and right of the centre of `demoWindow`, as far down as right:
(640, 1060). -/
def pressTie : AInputEvent :=
  { action := AMOTION_EVENT_ACTION_DOWN, x := int_to_float 640, y := int_to_float 1060 }

/-- A press at x = 100 - 2^-17 = 13107199 * 2^-17 (the binary32 value just below 100) and
y = 1400: left of the centre of `demoWindow` by a little more than it is below it. -/
def pressOff : AInputEvent :=
  { action := AMOTION_EVENT_ACTION_DOWN
    x := float.finite (13107199 * 2 ^ 132)
    y := int_to_float 1400 }

/-- The state after `init_game` at program start when `rand()` answers 3 and 3: the food is
away from row 10. -/
def demoIdle : GameState :=
  { direction := Direction.RIGHT
    nextDirection := Direction.RIGHT
    snakeBody := [⟨10, 10⟩]
    foodPosition := ⟨3, 3⟩
    gameOver := false
    score := 0
    lastUpdateTime := 0 }

/-- The cells the successive rounds of the loop of `spawnFood` (line 222) draw from a sequence
of results of `rand()`: the results taken two at a time, each reduced modulo `GRID_SIZE`. -/
def sampledCells : List Nat → List vec2
  | r1 :: r2 :: rest => ⟨(r1 : Int) % GRID_SIZE, (r2 : Int) % GRID_SIZE⟩ :: sampledCells rest
  | _ => []

/-- Two cells are grid-adjacent: they differ by exactly 1 in one coordinate and are equal in
the other. -/
def adjacent (a b : vec2) : Prop :=
  (a.x = b.x ∧ (a.y = b.y + 1 ∨ b.y = a.y + 1)) ∨ (a.y = b.y ∧ (a.x = b.x + 1 ∨ b.x = a.x + 1))

instance decidableAdjacent (a b : vec2) : Decidable (adjacent a b) := by
  unfold adjacent
  infer_instance

/-- The invariant of the steering: the pending direction never reverses the applied one, the
head of a running snake lies one step in the applied direction from the second cell, the next
head is never the second cell, and consecutive cells are grid-adjacent. -/
structure Steered (s : GameState) : Prop where
  noReverse : s.nextDirection ≠ reverse s.direction
  heading : s.gameOver = false → ∀ front second rest,
    s.snakeBody = front :: second :: rest → front = moveHead s.direction second
  noTurnBack : ∀ front second rest,
    s.snakeBody = front :: second :: rest → moveHead s.nextDirection front ≠ second
  chain : s.snakeBody.Chain' adjacent

/-- The snake that covers the whole grid, column by column. -/
def fullGrid : List vec2 :=
  (List.range 20).flatMap fun (i : Nat) =>
    (List.range 20).map fun (j : Nat) => (⟨(i : Int), (j : Int)⟩ : vec2)

/-- A running game whose snake covers the whole grid. -/
def demoFull : GameState :=
  { direction := Direction.RIGHT
    nextDirection := Direction.RIGHT
    snakeBody := fullGrid
    foodPosition := ⟨0, 0⟩
    gameOver := false
    score := 399
    lastUpdateTime := 0 }

/-- A snake of four cells closed into a square, about to move down onto its own tail. -/
def demoSquare : GameState :=
  { direction := Direction.LEFT
    nextDirection := Direction.DOWN
    snakeBody := [⟨0, 0⟩, ⟨1, 0⟩, ⟨1, 1⟩, ⟨0, 1⟩]
    foodPosition := ⟨5, 5⟩
    gameOver := false
    score := 3
    lastUpdateTime := 0 }

/-! ## The scan and the food placement -/

theorem hitsSegment_iff (p : vec2) (l : List vec2) : hitsSegment p l = true ↔ p ∈ l := by
  induction l with
  | nil => simp [hitsSegment]
  | cons c l ih =>
    by_cases h : p = c
    · simp [hitsSegment, h]
    · simp [hitsSegment, h, ih]

theorem hitsSegment_eq_false_iff (p : vec2) (l : List vec2) :
    hitsSegment p l = false ↔ p ∉ l := by
  rw [← hitsSegment_iff, Bool.not_eq_true]

theorem inGrid_sample (r1 r2 : Nat) :
    inGrid ⟨(r1 : Int) % GRID_SIZE, (r2 : Int) % GRID_SIZE⟩ := by
  simp only [inGrid, GRID_SIZE]
  omega

/-- What `spawnFood` has done when it returns: only `foodPosition` has changed, and it holds a
grid cell that no segment of the snake occupies. -/
theorem spawnFood_some : ∀ (rs : List Nat) (s s1 : GameState), spawnFood rs s = some s1 →
    s1 = { s with foodPosition := s1.foodPosition } ∧ inGrid s1.foodPosition ∧
      s1.foodPosition ∉ s.snakeBody
  | [], s, s1, h => by simp [spawnFood] at h
  | [_], s, s1, h => by simp [spawnFood] at h
  | r1 :: r2 :: rest, s, s1, h => by
    rw [spawnFood] at h
    by_cases hit : hitsSegment ⟨(r1 : Int) % GRID_SIZE, (r2 : Int) % GRID_SIZE⟩ s.snakeBody = true
    · simp only [hit, if_true] at h
      have ih := spawnFood_some rest _ s1 h
      simpa using ih
    · simp only [hit] at h
      simp only [Bool.false_eq_true, if_false, Option.some.injEq] at h
      subst h
      refine ⟨rfl, inGrid_sample r1 r2, ?_⟩
      rw [← hitsSegment_iff]
      simpa using hit

/-! ## The branches of `update_game` -/

theorem outOfGrid_eq_false_iff (p : vec2) : outOfGrid p = false ↔ inGrid p := by
  simp only [outOfGrid, inGrid, Bool.or_eq_false_iff, decide_eq_false_iff_not, not_lt, ge_iff_le,
    not_le]
  tauto

theorem outOfGrid_iff (p : vec2) :
    outOfGrid p = true ↔ p.x < 0 ∨ p.x ≥ GRID_SIZE ∨ p.y < 0 ∨ p.y ≥ GRID_SIZE := by
  simp only [outOfGrid, Bool.or_eq_true, decide_eq_true_eq]
  tauto

/-- The guard of line 151 fails: nothing is written. -/
theorem update_game_idle (rs : List Nat) (t : ℚ) (s : GameState)
    (h : s.gameOver = true ∨ ¬ (t - s.lastUpdateTime > UPDATE_INTERVAL)) :
    update_game rs t s = some s := by
  rcases h with h | h
  · simp [update_game, h]
  · simp [update_game, h]

/-- The new head is outside the grid or on a segment: the flag is raised, the deque is not
touched. -/
theorem update_game_crash (rs : List Nat) (t : ℚ) (s : GameState) (front : vec2)
    (rest : List vec2) (hgo : s.gameOver = false)
    (hgate : t - s.lastUpdateTime > UPDATE_INTERVAL) (hsn : s.snakeBody = front :: rest)
    (hbad : outOfGrid (moveHead s.nextDirection front) = true ∨
      moveHead s.nextDirection front ∈ s.snakeBody) :
    update_game rs t s =
      some { s with lastUpdateTime := t, direction := s.nextDirection, gameOver := true } := by
  by_cases hout : outOfGrid (moveHead s.nextDirection front) = true
  · by_cases hhit : hitsSegment (moveHead s.nextDirection front) (front :: rest) = true
    · simp [update_game, hgo, hgate, hsn, hout, hhit]
    · simp [update_game, hgo, hgate, hsn, hout, hhit]
  · have hmem : moveHead s.nextDirection front ∈ s.snakeBody := hbad.resolve_left hout
    have hhit : hitsSegment (moveHead s.nextDirection front) (front :: rest) = true := by
      rw [hitsSegment_iff, ← hsn]; exact hmem
    simp [update_game, hgo, hgate, hsn, hout, hhit]

/-- The new head is a free grid cell other than the food: push at the front, pop at the
back. -/
theorem update_game_move (rs : List Nat) (t : ℚ) (s : GameState) (front : vec2)
    (rest : List vec2) (hgo : s.gameOver = false)
    (hgate : t - s.lastUpdateTime > UPDATE_INTERVAL) (hsn : s.snakeBody = front :: rest)
    (hin : outOfGrid (moveHead s.nextDirection front) = false)
    (hfree : moveHead s.nextDirection front ∉ s.snakeBody)
    (hfood : moveHead s.nextDirection front ≠ s.foodPosition) :
    update_game rs t s =
      some { s with
        lastUpdateTime := t
        direction := s.nextDirection
        snakeBody := moveHead s.nextDirection front :: s.snakeBody.dropLast } := by
  have hhit : hitsSegment (moveHead s.nextDirection front) (front :: rest) = false := by
    rw [hitsSegment_eq_false_iff, ← hsn]; exact hfree
  simp [update_game, hgo, hgate, hsn, hin, hhit, hfood]

/-- The new head is a free grid cell holding the food: push at the front, count, and place the
food again. -/
theorem update_game_eat (rs : List Nat) (t : ℚ) (s : GameState) (front : vec2)
    (rest : List vec2) (hgo : s.gameOver = false)
    (hgate : t - s.lastUpdateTime > UPDATE_INTERVAL) (hsn : s.snakeBody = front :: rest)
    (hin : outOfGrid (moveHead s.nextDirection front) = false)
    (hfree : moveHead s.nextDirection front ∉ s.snakeBody)
    (hfood : moveHead s.nextDirection front = s.foodPosition) :
    update_game rs t s =
      spawnFood rs { s with
        lastUpdateTime := t
        direction := s.nextDirection
        snakeBody := moveHead s.nextDirection front :: s.snakeBody
        score := wrapInt32 (s.score + 1) } := by
  have hhit : hitsSegment (moveHead s.nextDirection front) (front :: rest) = false := by
    rw [hitsSegment_eq_false_iff, ← hsn]; exact hfree
  simp only [update_game, hgo, hgate, hsn, List.head?_cons, hin, hhit, Bool.not_false,
    decide_True, Bool.and_self, if_true, Bool.false_eq_true, if_false]
  rw [if_pos hfood]

/-! ## The invariant of the running game -/

/-- Distinct grid cells are at most `GRID_SIZE * GRID_SIZE = 400`. -/
theorem length_le_of_nodup_inGrid (l : List vec2) (hn : l.Nodup) (hg : ∀ c ∈ l, inGrid c) :
    l.length ≤ 400 := by
  have hinj : ∀ a ∈ l, ∀ b ∈ l,
      (fun c : vec2 => (c.x.toNat, c.y.toNat)) a = (fun c : vec2 => (c.x.toNat, c.y.toNat)) b →
        a = b := by
    intro a ha b hb hab
    have h1 := hg a ha
    have h2 := hg b hb
    simp only [inGrid] at h1 h2
    simp only [Prod.mk.injEq] at hab
    cases a
    cases b
    simp only [vec2.mk.injEq]
    simp only at h1 h2 hab
    omega
  have hmap : (l.map fun c : vec2 => (c.x.toNat, c.y.toNat)).Nodup := hn.map_on hinj
  have hsub : (l.map fun c : vec2 => (c.x.toNat, c.y.toNat)).toFinset ⊆
      Finset.range 20 ×ˢ Finset.range 20 := by
    intro q hq
    simp only [List.mem_toFinset, List.mem_map] at hq
    obtain ⟨c, hc, rfl⟩ := hq
    have h1 := hg c hc
    simp only [inGrid, GRID_SIZE] at h1
    simp only [Finset.mem_product, Finset.mem_range]
    omega
  have hcard := Finset.card_le_card hsub
  rw [List.toFinset_card_of_nodup hmap, List.length_map, Finset.card_product,
    Finset.card_range] at hcard
  exact hcard

theorem wrapInt32_eq_self (n : Int) (h0 : -2147483648 ≤ n) (h1 : n < 2147483648) :
    wrapInt32 n = n := by
  unfold wrapInt32
  omega

/-- The state `init_game` leaves when it returns. -/
theorem init_game_some (rs : List Nat) (s0 s : GameState) (h : init_game rs s0 = some s) :
    s = { direction := Direction.RIGHT
          nextDirection := Direction.RIGHT
          snakeBody := [⟨10, 10⟩]
          foodPosition := s.foodPosition
          gameOver := false
          score := 0
          lastUpdateTime := s0.lastUpdateTime } ∧
      inGrid s.foodPosition ∧ s.foodPosition ≠ ⟨10, 10⟩ := by
  obtain ⟨h1, h2, h3⟩ := spawnFood_some rs _ s h
  refine ⟨?_, h2, ?_⟩
  · rw [h1]
    simp [GRID_SIZE]
  · simpa [GRID_SIZE] using h3

theorem wellFormed_init_game (rs : List Nat) (s0 s : GameState)
    (h : init_game rs s0 = some s) : WellFormed s := by
  obtain ⟨h1, h2, h3⟩ := init_game_some rs s0 s h
  rw [h1]
  refine ⟨by simp, by simp, ?_, h2, ?_, by simp⟩
  · intro c hc
    simp only [List.mem_singleton] at hc
    subst hc
    simp [inGrid, GRID_SIZE]
  · simpa using h3

theorem wellFormed_update_game (rs : List Nat) (t : ℚ) (s s1 : GameState) (hw : WellFormed s)
    (h : update_game rs t s = some s1) : WellFormed s1 := by
  by_cases hidle : s.gameOver = true ∨ ¬ (t - s.lastUpdateTime > UPDATE_INTERVAL)
  · rw [update_game_idle rs t s hidle] at h
    cases h
    exact hw
  · rw [not_or, not_not] at hidle
    obtain ⟨hgo, hgate⟩ := hidle
    rw [Bool.not_eq_true] at hgo
    obtain ⟨front, rest, hsn⟩ := List.exists_cons_of_ne_nil hw.nonempty
    by_cases hbad : outOfGrid (moveHead s.nextDirection front) = true ∨
        moveHead s.nextDirection front ∈ s.snakeBody
    · rw [update_game_crash rs t s front rest hgo hgate hsn hbad] at h
      cases h
      exact ⟨hw.nonempty, hw.nodup, hw.snakeInGrid, hw.foodInGrid, hw.foodFree, hw.scoreLength⟩
    · rw [not_or, Bool.not_eq_true] at hbad
      obtain ⟨hin, hfree⟩ := hbad
      have hgrid : inGrid (moveHead s.nextDirection front) := (outOfGrid_eq_false_iff _).1 hin
      by_cases hfood : moveHead s.nextDirection front = s.foodPosition
      · rw [update_game_eat rs t s front rest hgo hgate hsn hin hfree hfood] at h
        obtain ⟨h1, h2, h3⟩ := spawnFood_some rs _ s1 h
        have hlen := length_le_of_nodup_inGrid s.snakeBody hw.nodup hw.snakeInGrid
        have hsc := hw.scoreLength
        have hwrap : wrapInt32 (s.score + 1) = s.score + 1 :=
          wrapInt32_eq_self _ (by omega) (by omega)
        rw [h1]
        refine ⟨by simp, ?_, ?_, h2, h3, ?_⟩
        · exact List.nodup_cons.2 ⟨hfree, hw.nodup⟩
        · intro c hc
          rcases List.mem_cons.1 hc with rfl | hc
          · exact hgrid
          · exact hw.snakeInGrid c hc
        · simp only [hwrap, List.length_cons]
          omega
      · rw [update_game_move rs t s front rest hgo hgate hsn hin hfree hfood] at h
        cases h
        have hsub : (moveHead s.nextDirection front :: s.snakeBody.dropLast).Sublist
            (moveHead s.nextDirection front :: s.snakeBody) :=
          (List.dropLast_sublist _).cons₂ _
        have hnd : (moveHead s.nextDirection front :: s.snakeBody).Nodup :=
          List.nodup_cons.2 ⟨hfree, hw.nodup⟩
        refine ⟨by simp, hnd.sublist hsub, ?_, hw.foodInGrid, ?_, ?_⟩
        · intro c hc
          rcases List.mem_cons.1 (hsub.subset hc) with rfl | hc
          · exact hgrid
          · exact hw.snakeInGrid c hc
        · intro hc
          rcases List.mem_cons.1 (hsub.subset hc) with hc | hc
          · exact hfood hc.symm
          · exact hw.foodFree hc
        · have := hw.scoreLength
          simp only [List.length_cons, List.length_dropLast, hsn] at this ⊢
          omega

/-! ## The branches of `handle_input` -/

/-- An event that is not a press is ignored. -/
theorem handle_input_other (rs : List Nat) (window : ANativeWindow) (event : AInputEvent)
    (s : GameState) (h : event.action ≠ AMOTION_EVENT_ACTION_DOWN) :
    handle_input rs window event s = some s := by
  simp [handle_input, h]

/-- A press while the game is over restarts the game. -/
theorem handle_input_restart (rs : List Nat) (window : ANativeWindow) (event : AInputEvent)
    (s : GameState) (h : event.action = AMOTION_EVENT_ACTION_DOWN) (hgo : s.gameOver = true) :
    handle_input rs window event s = init_game rs s := by
  simp [handle_input, h, hgo]

/-- A press while the game is running writes at most `nextDirection`. -/
theorem handle_input_press (rs : List Nat) (window : ANativeWindow) (event : AInputEvent)
    (s : GameState) (h : event.action = AMOTION_EVENT_ACTION_DOWN) (hgo : s.gameOver = false) :
    handle_input rs window event s =
      some { s with
        nextDirection :=
          if pressDirection window event ≠ reverse s.direction then pressDirection window event
          else s.nextDirection } := by
  obtain ⟨d, nd, body, food, over, sc, last⟩ := s
  simp only at hgo
  subst hgo
  simp only [handle_input, h, if_true, Bool.false_eq_true, if_false, pressDirection, offsetX,
    offsetY]
  by_cases hxy : float.gt
      (float.abs (float.sub event.x (float.halve (int_to_float window.width))))
      (float.abs (float.sub event.y (float.halve (int_to_float window.height)))) = true
  · by_cases hx : float.gt (float.sub event.x (float.halve (int_to_float window.width)))
        (float.finite 0) = true
    · simp only [hxy, hx, if_true]
      cases d <;> simp [reverse]
    · simp only [hxy, hx, if_true, if_false]
      cases d <;> simp [reverse]
  · by_cases hy : float.gt (float.sub event.y (float.halve (int_to_float window.height)))
        (float.finite 0) = true
    · simp only [hxy, hy, if_true, if_false]
      cases d <;> simp [reverse]
    · simp only [hxy, hy, if_false]
      cases d <;> simp [reverse]

theorem wellFormed_handle_input (rs : List Nat) (window : ANativeWindow) (event : AInputEvent)
    (s s1 : GameState) (hw : WellFormed s) (h : handle_input rs window event s = some s1) :
    WellFormed s1 := by
  by_cases hact : event.action = AMOTION_EVENT_ACTION_DOWN
  · cases hgo : s.gameOver
    · rw [handle_input_press rs window event s hact hgo] at h
      cases h
      exact ⟨hw.nonempty, hw.nodup, hw.snakeInGrid, hw.foodInGrid, hw.foodFree, hw.scoreLength⟩
    · rw [handle_input_restart rs window event s hact hgo] at h
      exact wellFormed_init_game rs s s1 h
  · rw [handle_input_other rs window event s hact] at h
    cases h
    exact hw

theorem wellFormed_of_reachable (s : GameState) (h : Reachable s) : WellFormed s := by
  induction h with
  | init s0 s rs h => exact wellFormed_init_game rs s0 s h
  | tick s s1 rs t _ h ih => exact wellFormed_update_game rs t s s1 ih h
  | input s s1 rs window event _ h ih => exact wellFormed_handle_input rs window event s s1 ih h

/-! ## Sample runs -/

theorem init_game_demoStart : init_game [11, 10] initialGlobals = some demoStart := by
  rfl

theorem gate_demo : (1 : ℚ) - 0 > UPDATE_INTERVAL := by
  norm_num [UPDATE_INTERVAL]

theorem update_game_demoStart :
    update_game [10, 10, 11, 10, 5, 7] 1 demoStart = some demoFed := by
  rw [update_game_eat [10, 10, 11, 10, 5, 7] 1 demoStart ⟨10, 10⟩ [] rfl gate_demo rfl rfl
    (by decide) rfl]
  rfl

theorem reachable_demoStart : Reachable demoStart :=
  Reachable.init initialGlobals demoStart [11, 10] init_game_demoStart

theorem reachable_demoFed : Reachable demoFed :=
  Reachable.tick demoStart demoFed [10, 10, 11, 10, 5, 7] 1 reachable_demoStart
    update_game_demoStart

/-- Once the guard of line 151 has passed on a non-empty snake, every state `update_game`
returns has `direction` equal to the old `nextDirection` and `lastUpdateTime` equal to the
clock value. -/
theorem update_game_commits (rs : List Nat) (t : ℚ) (s s1 : GameState) (front : vec2)
    (rest : List vec2) (hgo : s.gameOver = false)
    (hgate : t - s.lastUpdateTime > UPDATE_INTERVAL) (hsn : s.snakeBody = front :: rest)
    (h : update_game rs t s = some s1) :
    s1.direction = s.nextDirection ∧ s1.lastUpdateTime = t := by
  by_cases hbad : outOfGrid (moveHead s.nextDirection front) = true ∨
      moveHead s.nextDirection front ∈ s.snakeBody
  · rw [update_game_crash rs t s front rest hgo hgate hsn hbad] at h
    cases h
    exact ⟨rfl, rfl⟩
  · rw [not_or, Bool.not_eq_true] at hbad
    obtain ⟨hin, hfree⟩ := hbad
    by_cases hfood : moveHead s.nextDirection front = s.foodPosition
    · rw [update_game_eat rs t s front rest hgo hgate hsn hin hfree hfood] at h
      obtain ⟨h1, -, -⟩ := spawnFood_some rs _ s1 h
      rw [h1]
      exact ⟨rfl, rfl⟩
    · rw [update_game_move rs t s front rest hgo hgate hsn hin hfree hfood] at h
      cases h
      exact ⟨rfl, rfl⟩

/-- One round of the loop of `spawnFood` whose sample is free ends the loop. -/
theorem spawnFood_accept (r1 r2 : Nat) (later : List Nat) (s : GameState)
    (hfree : (⟨(r1 : Int) % GRID_SIZE, (r2 : Int) % GRID_SIZE⟩ : vec2) ∉ s.snakeBody) :
    spawnFood (r1 :: r2 :: later) s =
      some { s with foodPosition := ⟨(r1 : Int) % GRID_SIZE, (r2 : Int) % GRID_SIZE⟩ } := by
  rw [spawnFood]
  have hhit := (hitsSegment_eq_false_iff _ _).2 hfree
  simp only [hhit, Bool.false_eq_true, if_false]

/-- The loop of `spawnFood` overwrites `foodPosition` before reading it. -/
theorem spawnFood_forgets_food (rs : List Nat) (s : GameState) (p : vec2) :
    spawnFood rs { s with foodPosition := p } = spawnFood rs s := by
  match rs with
  | [] => simp [spawnFood]
  | [_] => simp [spawnFood]
  | r1 :: r2 :: later => rw [spawnFood, spawnFood]

/-- Of the prior state, `init_game` keeps `lastUpdateTime` only. -/
theorem init_game_forgets (rs : List Nat) (s s0 : GameState)
    (h : s.lastUpdateTime = s0.lastUpdateTime) : init_game rs s = init_game rs s0 := by
  unfold init_game
  have e : ({ s with
      snakeBody := [⟨GRID_SIZE / 2, GRID_SIZE / 2⟩]
      direction := Direction.RIGHT
      nextDirection := Direction.RIGHT
      score := 0
      gameOver := false } : GameState) =
      { ({ s0 with
          snakeBody := [⟨GRID_SIZE / 2, GRID_SIZE / 2⟩]
          direction := Direction.RIGHT
          nextDirection := Direction.RIGHT
          score := 0
          gameOver := false } : GameState) with foodPosition := s.foodPosition } := by
    simp [h]
  rw [e, spawnFood_forgets_food]

/-- Ticks on a finished game do nothing. -/
theorem runTicks_gameOver (ticks : List (List Nat × ℚ)) (s : GameState)
    (hgo : s.gameOver = true) : runTicks ticks s = some s := by
  induction ticks with
  | nil => rfl
  | cons tick later ih =>
    obtain ⟨rs, t⟩ := tick
    rw [runTicks, update_game_idle rs t s (Or.inl hgo)]
    exact ih

set_option maxRecDepth 100000 in
theorem pressDirection_pressRight : pressDirection demoWindow pressRight = Direction.RIGHT := by
  decide

set_option maxRecDepth 100000 in
theorem pressDirection_pressLeft : pressDirection demoWindow pressLeft = Direction.LEFT := by
  decide

theorem gate_demo_early : ¬ ((1 / 10 : ℚ) - 0 > UPDATE_INTERVAL) := by
  norm_num [UPDATE_INTERVAL]

/-! ## The straight run to the right wall -/

/-- One passing tick of a one-cell snake on row 10 heading right, left of column 19, with no
food ahead: the cell moves one column to the right. -/
theorem update_game_row_step (rs : List Nat) (t : ℚ) (s : GameState) (j : Nat)
    (hsn : s.snakeBody = [⟨10 + (j : Int), 10⟩]) (hnd : s.nextDirection = Direction.RIGHT)
    (hgo : s.gameOver = false) (hgate : t - s.lastUpdateTime > UPDATE_INTERVAL) (hj : j < 9)
    (hfood : ∀ k : Int, 11 ≤ k → k ≤ 19 → s.foodPosition ≠ ⟨k, 10⟩) :
    update_game rs t s =
      some { s with
        lastUpdateTime := t
        direction := Direction.RIGHT
        snakeBody := [⟨10 + ((j + 1 : Nat) : Int), 10⟩] } := by
  have hmv : moveHead s.nextDirection ⟨10 + (j : Int), 10⟩ = ⟨10 + ((j + 1 : Nat) : Int), 10⟩ := by
    rw [hnd]
    simp only [moveHead, Nat.cast_add, Nat.cast_one, vec2.mk.injEq, and_true]
    omega
  rw [update_game_move rs t s ⟨10 + (j : Int), 10⟩ [] hgo hgate hsn]
  · rw [hmv, hnd, hsn]
    rfl
  · rw [hmv, outOfGrid_eq_false_iff]
    simp only [inGrid, GRID_SIZE]
    omega
  · rw [hmv, hsn]
    simp only [List.mem_singleton, vec2.mk.injEq, and_true]
    omega
  · rw [hmv]
    exact (hfood _ (by omega) (by omega)).symm

/-- One passing tick of a one-cell snake at (19, 10) heading right: the game is over and the
snake stays. -/
theorem update_game_row_end (rs : List Nat) (t : ℚ) (s : GameState)
    (hsn : s.snakeBody = [⟨19, 10⟩]) (hnd : s.nextDirection = Direction.RIGHT)
    (hgo : s.gameOver = false) (hgate : t - s.lastUpdateTime > UPDATE_INTERVAL) :
    update_game rs t s =
      some { s with lastUpdateTime := t, direction := Direction.RIGHT, gameOver := true } := by
  rw [update_game_crash rs t s ⟨19, 10⟩ [] hgo hgate hsn (Or.inl (by rw [hnd]; decide)), hnd]

theorem runTicks_append (ticks more : List (List Nat × ℚ)) (s : GameState) :
    runTicks (ticks ++ more) s = (runTicks ticks s).bind (runTicks more) := by
  induction ticks generalizing s with
  | nil => rfl
  | cons tick later ih =>
    obtain ⟨rs, t⟩ := tick
    simp only [List.cons_append, runTicks]
    cases update_game rs t s with
    | none => rfl
    | some s1 => exact ih s1

/-- The run of a one-cell snake on row 10 heading right with no direction input and no food
ahead, from column `10 + j`: after `q` passing ticks it is at column `10 + j + q` while that
is at most 19, and the passing tick after that ends the game for good. -/
theorem runTicks_row (ticks : List (List Nat × ℚ)) :
    ∀ (s : GameState) (j : Nat), s.snakeBody = [⟨10 + (j : Int), 10⟩] →
      s.nextDirection = Direction.RIGHT → s.gameOver = false → j ≤ 9 →
      (∀ k : Int, 11 ≤ k → k ≤ 19 → s.foodPosition ≠ ⟨k, 10⟩) →
      (j + qualifyingTicks s.lastUpdateTime (ticks.map Prod.snd) ≤ 9 →
        ∃ s1, runTicks ticks s = some s1 ∧
          s1.snakeBody =
            [⟨10 + ((j + qualifyingTicks s.lastUpdateTime (ticks.map Prod.snd) : Nat) : Int),
              10⟩] ∧
          s1.gameOver = false) ∧
      (j + qualifyingTicks s.lastUpdateTime (ticks.map Prod.snd) = 10 →
        ∀ more, ∃ s1, runTicks (ticks ++ more) s = some s1 ∧
          s1.snakeBody = [⟨19, 10⟩] ∧ s1.gameOver = true) := by
  induction ticks with
  | nil =>
    intro s j hsn _ hgo hj _
    simp only [List.map_nil, qualifyingTicks, Nat.add_zero]
    exact ⟨fun _ => ⟨s, rfl, hsn, hgo⟩, fun h => absurd h (by omega)⟩
  | cons tick later ih =>
    obtain ⟨rs, t⟩ := tick
    intro s j hsn hnd hgo hj hfood
    simp only [List.map_cons, qualifyingTicks, List.cons_append, runTicks]
    by_cases hgate : t - s.lastUpdateTime > UPDATE_INTERVAL
    · simp only [hgate, if_true]
      rcases Nat.lt_or_ge j 9 with hlt | hge
      · rw [update_game_row_step rs t s j hsn hnd hgo hgate hlt hfood]
        simp only [Option.some_bind]
        have := ih { s with
          lastUpdateTime := t
          direction := Direction.RIGHT
          snakeBody := [⟨10 + ((j + 1 : Nat) : Int), 10⟩] } (j + 1) rfl hnd hgo (by omega) hfood
        simp only at this
        have e : j + (qualifyingTicks t (later.map Prod.snd) + 1) =
            j + 1 + qualifyingTicks t (later.map Prod.snd) := by omega
        rw [e]
        exact this
      · have hj9 : j = 9 := by omega
        subst hj9
        rw [update_game_row_end rs t s (by simpa using hsn) hnd hgo hgate]
        simp only [Option.some_bind]
        refine ⟨fun h => absurd h (by omega), fun _ more => ?_⟩
        refine ⟨_, runTicks_gameOver (later ++ more) _ rfl, ?_, rfl⟩
        simpa using hsn
    · simp only [hgate, if_false]
      rw [update_game_idle rs t s (Or.inr hgate)]
      simp only [Option.some_bind]
      exact ih s j hsn hnd hgo hj hfood

theorem init_game_demoIdle : init_game [3, 3] initialGlobals = some demoIdle := by
  rfl

theorem demoIdle_food_off_row :
    ∀ k : Int, 11 ≤ k → k ≤ 19 → demoIdle.foodPosition ≠ ⟨k, 10⟩ := by
  intro k _ _ h
  simp [demoIdle] at h

theorem qualifyingTicks_demo :
    qualifyingTicks demoIdle.lastUpdateTime (([([], 1)] : List (List Nat × ℚ)).map Prod.snd) ≤ 9 := by
  simp [qualifyingTicks]
  split_ifs <;> omega

/-! ## The invariant of the steering -/

theorem adjacent_moveHead (d : Direction) (c : vec2) : adjacent (moveHead d c) c := by
  cases d <;> simp [adjacent, moveHead]

theorem moveHead_back_iff (d e : Direction) (c : vec2) :
    moveHead e (moveHead d c) = c ↔ e = reverse d := by
  obtain ⟨x, y⟩ := c
  cases d <;> cases e <;> simp [moveHead, reverse] <;> omega

theorem direction_ne_reverse (d : Direction) : d ≠ reverse d := by
  cases d <;> simp [reverse]

theorem steered_init_game (rs : List Nat) (s0 s : GameState)
    (h : init_game rs s0 = some s) : Steered s := by
  obtain ⟨h1, -, -⟩ := init_game_some rs s0 s h
  rw [h1]
  refine ⟨by simp [reverse], ?_, ?_, by simp⟩
  · intro _ front second rest hsn
    simp at hsn
  · intro front second rest hsn
    simp at hsn

/-- The second cell after a push at the front and a pop at the back is the old head. -/
theorem second_after_move (nh f front second : vec2) (rest tail : List vec2)
    (h : nh :: (front :: rest).dropLast = f :: second :: tail) : second = front := by
  cases rest with
  | nil => simp at h
  | cons r rs =>
    simp only [List.dropLast_cons₂, List.cons.injEq] at h
    exact h.2.1.symm

theorem steered_update_game (rs : List Nat) (t : ℚ) (s s1 : GameState) (hw : WellFormed s)
    (hs : Steered s) (h : update_game rs t s = some s1) : Steered s1 := by
  by_cases hidle : s.gameOver = true ∨ ¬ (t - s.lastUpdateTime > UPDATE_INTERVAL)
  · rw [update_game_idle rs t s hidle] at h
    cases h
    exact hs
  · rw [not_or, not_not] at hidle
    obtain ⟨hgo, hgate⟩ := hidle
    rw [Bool.not_eq_true] at hgo
    obtain ⟨front, rest, hsn⟩ := List.exists_cons_of_ne_nil hw.nonempty
    by_cases hbad : outOfGrid (moveHead s.nextDirection front) = true ∨
        moveHead s.nextDirection front ∈ s.snakeBody
    · rw [update_game_crash rs t s front rest hgo hgate hsn hbad] at h
      cases h
      refine ⟨direction_ne_reverse _, ?_, hs.noTurnBack, hs.chain⟩
      intro hfalse
      simp at hfalse
    · rw [not_or, Bool.not_eq_true] at hbad
      obtain ⟨hin, hfree⟩ := hbad
      have hchain : (moveHead s.nextDirection front :: s.snakeBody).Chain' adjacent := by
        rw [hsn]
        exact List.Chain'.cons (adjacent_moveHead _ _) (hsn ▸ hs.chain)
      have hback : ∀ c : vec2, moveHead s.nextDirection (moveHead s.nextDirection c) ≠ c := by
        intro c hc
        exact direction_ne_reverse _ ((moveHead_back_iff _ _ c).1 hc)
      by_cases hfood : moveHead s.nextDirection front = s.foodPosition
      · rw [update_game_eat rs t s front rest hgo hgate hsn hin hfree hfood] at h
        obtain ⟨h1, -, -⟩ := spawnFood_some rs _ s1 h
        rw [h1]
        refine ⟨direction_ne_reverse _, ?_, ?_, hchain⟩
        · intro _ f second tail heq
          simp only [hsn, List.cons.injEq] at heq
          rw [← heq.1, ← heq.2.1]
        · intro f second tail heq
          simp only [hsn, List.cons.injEq] at heq
          rw [← heq.1, ← heq.2.1]
          exact hback front
      · rw [update_game_move rs t s front rest hgo hgate hsn hin hfree hfood] at h
        cases h
        refine ⟨direction_ne_reverse _, ?_, ?_, ?_⟩
        · intro _ f second tail heq
          simp only [hsn] at heq
          have h2 := second_after_move _ f front second rest tail heq
          simp only [List.cons.injEq] at heq
          rw [← heq.1, h2]
        · intro f second tail heq
          simp only [hsn] at heq
          have h2 := second_after_move _ f front second rest tail heq
          simp only [List.cons.injEq] at heq
          rw [← heq.1, h2]
          exact hback front
        · have := hchain.init
          rw [hsn] at this
          simp only [hsn]
          simpa using this

theorem steered_handle_input (rs : List Nat) (window : ANativeWindow) (event : AInputEvent)
    (s s1 : GameState) (hs : Steered s) (h : handle_input rs window event s = some s1) :
    Steered s1 := by
  by_cases hact : event.action = AMOTION_EVENT_ACTION_DOWN
  · cases hgo : s.gameOver
    · rw [handle_input_press rs window event s hact hgo] at h
      cases h
      by_cases hd : pressDirection window event = reverse s.direction
      · simp only [hd, ne_eq, not_true_eq_false, if_false]
        exact ⟨hs.noReverse, hs.heading, hs.noTurnBack, hs.chain⟩
      · simp only [ne_eq, hd, not_false_eq_true, if_true]
        refine ⟨hd, hs.heading, ?_, hs.chain⟩
        intro front second rest hsn hc
        have hf := hs.heading hgo front second rest hsn
        rw [hf] at hc
        exact hd ((moveHead_back_iff _ _ second).1 hc)
    · rw [handle_input_restart rs window event s hact hgo] at h
      exact steered_init_game rs s s1 h
  · rw [handle_input_other rs window event s hact] at h
    cases h
    exact hs

theorem steered_of_reachable (s : GameState) (h : Reachable s) : Steered s := by
  induction h with
  | init s0 s rs h => exact steered_init_game rs s0 s h
  | tick s s1 rs t hr h ih =>
    exact steered_update_game rs t s s1 (wellFormed_of_reachable s hr) ih h
  | input s s1 rs window event _ h ih => exact steered_handle_input rs window event s s1 ih h

/-! ## The food placement as a search -/

/-- The loop of `spawnFood` returns with the first sampled cell that the scan does not find on
the snake, and does not return when there is none among the samples. -/
theorem spawnFood_eq_find : ∀ (rs : List Nat) (s : GameState),
    spawnFood rs s =
      ((sampledCells rs).find? fun c => !hitsSegment c s.snakeBody).map
        fun c => { s with foodPosition := c }
  | [], s => by simp [spawnFood, sampledCells]
  | [_], s => by simp [spawnFood, sampledCells]
  | r1 :: r2 :: rest, s => by
    rw [spawnFood, sampledCells, List.find?_cons]
    by_cases hit : hitsSegment ⟨(r1 : Int) % GRID_SIZE, (r2 : Int) % GRID_SIZE⟩ s.snakeBody = true
    · simp only [hit, if_true, Bool.not_true]
      rw [spawnFood_forgets_food, spawnFood_eq_find rest s]
    · rw [Bool.not_eq_true] at hit
      simp only [hit, Bool.false_eq_true, if_false, Bool.not_false, Option.map_some']

theorem mem_sampledCells_inGrid : ∀ (rs : List Nat) (c : vec2), c ∈ sampledCells rs → inGrid c
  | [], c, h => by simp [sampledCells] at h
  | [_], c, h => by simp [sampledCells] at h
  | r1 :: r2 :: rest, c, h => by
    rw [sampledCells, List.mem_cons] at h
    rcases h with rfl | h
    · exact inGrid_sample r1 r2
    · exact mem_sampledCells_inGrid rest c h

/-! ## Checks of the binary32 rounding on known values -/

set_option maxRecDepth 100000 in
/-- 2^24 + 1 is not a binary32 value: it rounds to 2^24 (a tie, to the even neighbour), and
2^24 + 3 rounds to 2^24 + 4. -/
theorem int_to_float_ties_to_even :
    int_to_float 16777217 = float.finite (16777216 * 2 ^ 149) ∧
      int_to_float 16777219 = float.finite (16777220 * 2 ^ 149) := by
  decide

set_option maxRecDepth 100000 in
/-- The largest finite binary32 value is (2^24 - 1) * 2^104; a result half a unit in the last
place above it overflows, anything less rounds back to it. -/
theorem float_round_overflow :
    float.round ((2 ^ 24 - 1) * 2 ^ 253 + 2 ^ 252) = float.inf false ∧
      float.round ((2 ^ 24 - 1) * 2 ^ 253 + 2 ^ 252 - 1) =
        float.finite ((2 ^ 24 - 1) * 2 ^ 253) := by
  decide

set_option maxRecDepth 100000 in
theorem pressTie_is_tie :
    float.gt (float.abs (offsetX demoWindow pressTie)) (float.abs (offsetY demoWindow pressTie)) =
      false := by
  decide

set_option maxRecDepth 100000 in
theorem pressTie_is_below : float.gt (offsetY demoWindow pressTie) (float.finite 0) = true := by
  decide

set_option maxRecDepth 100000 in
theorem pressOff_y : pressOff.y = float.finite (1400 * 2 ^ 149) := by
  decide

theorem pressOff_value :
    float.value pressOff.x = some (100 - 1 / 131072) ∧ float.value pressOff.y = some 1400 := by
  constructor
  · simp only [pressOff, float.value, Option.some.injEq]
    norm_num
  · have e : pressOff.y = float.finite (1400 * 2 ^ 149) := pressOff_y
    rw [e]
    simp only [float.value, Option.some.injEq]
    norm_num

theorem exactDirection_pressOff :
    exactDirection (100 - 1 / 131072) 1400 demoWindow.width demoWindow.height =
      Direction.LEFT := by
  norm_num [exactDirection, demoWindow, abs_lt, abs_of_neg, abs_of_pos]

set_option maxRecDepth 100000 in
theorem offsets_pressOff :
    offsetX demoWindow pressOff = float.finite (-440 * 2 ^ 149) ∧
      offsetY demoWindow pressOff = float.finite (440 * 2 ^ 149) := by
  decide

set_option maxRecDepth 100000 in
theorem pressDirection_pressOff : pressDirection demoWindow pressOff = Direction.DOWN := by
  decide

theorem mem_fullGrid (c : vec2) (h : inGrid c) : c ∈ fullGrid := by
  obtain ⟨x, y⟩ := c
  simp only [inGrid, GRID_SIZE] at h
  have hx : x.toNat < 20 := by omega
  have hy : y.toNat < 20 := by omega
  refine List.mem_flatMap.2 ⟨x.toNat, List.mem_range.2 hx,
    List.mem_map.2 ⟨y.toNat, List.mem_range.2 hy, ?_⟩⟩
  rw [Int.toNat_of_nonneg h.1, Int.toNat_of_nonneg h.2.2.1]

/-! ## The claims -/

/-- C1: in every state reachable from the state `init_game` produces, by ticks at any clock
values, events of any coordinates and window size, and any results of `rand()` for which
`spawnFood` returns, `foodPosition` is not a cell of `snakeBody`. -/
theorem food_never_on_snake (s : GameState) (h : Reachable s) :
    s.foodPosition ∉ s.snakeBody :=
  (wellFormed_of_reachable s h).foodFree

/-- Witness of C1 on the state reached by one restart and one eating tick. -/
theorem food_never_on_snake_witness :
    Reachable demoFed ∧ demoFed.foodPosition ∉ demoFed.snakeBody :=
  ⟨reachable_demoFed, food_never_on_snake demoFed reachable_demoFed⟩

/-- C2: in a reachable state with the game running and the interval elapsed, when the new head
is the food cell, the tick returns exactly when `spawnFood` returns on the grown snake (it does
as soon as a sample is free), and the state it returns has the score raised by exactly 1, the
new head pushed in front of the whole old snake (length raised by 1, no tail removed),
`gameOver` still false, and a food cell that is on no cell of the new snake. -/
theorem eating_grows_and_scores (s : GameState) (t : ℚ) (front : vec2) (rest : List vec2)
    (hr : Reachable s) (hgo : s.gameOver = false)
    (hgate : t - s.lastUpdateTime > UPDATE_INTERVAL) (hsn : s.snakeBody = front :: rest)
    (hfood : moveHead s.nextDirection front = s.foodPosition) :
    (∀ rs s1, update_game rs t s = some s1 →
      s1.score = s.score + 1 ∧
      s1.snakeBody = moveHead s.nextDirection front :: s.snakeBody ∧
      s1.snakeBody.length = s.snakeBody.length + 1 ∧
      s1.gameOver = false ∧
      s1.foodPosition ∉ s1.snakeBody) ∧
    (∀ rs, update_game rs t s =
      spawnFood rs { s with
        lastUpdateTime := t
        direction := s.nextDirection
        snakeBody := moveHead s.nextDirection front :: s.snakeBody
        score := wrapInt32 (s.score + 1) }) ∧
    (∀ (r1 r2 : Nat) (later : List Nat),
      (⟨(r1 : Int) % GRID_SIZE, (r2 : Int) % GRID_SIZE⟩ : vec2) ∉
        moveHead s.nextDirection front :: s.snakeBody →
      ∃ s1, update_game (r1 :: r2 :: later) t s = some s1) := by
  have hw := wellFormed_of_reachable s hr
  have hin : outOfGrid (moveHead s.nextDirection front) = false := by
    rw [outOfGrid_eq_false_iff, hfood]; exact hw.foodInGrid
  have hfree : moveHead s.nextDirection front ∉ s.snakeBody := by
    rw [hfood]; exact hw.foodFree
  have heq := fun rs => update_game_eat rs t s front rest hgo hgate hsn hin hfree hfood
  refine ⟨?_, heq, ?_⟩
  · intro rs s1 h
    rw [heq rs] at h
    obtain ⟨h1, -, h3⟩ := spawnFood_some rs _ s1 h
    have hlen := length_le_of_nodup_inGrid s.snakeBody hw.nodup hw.snakeInGrid
    have hsc := hw.scoreLength
    have hwrap : wrapInt32 (s.score + 1) = s.score + 1 :=
      wrapInt32_eq_self _ (by omega) (by omega)
    refine ⟨?_, ?_, ?_, ?_, ?_⟩
    · rw [h1]; exact hwrap
    · rw [h1]
    · rw [h1]; simp
    · rw [h1]; exact hgo
    · have h4 : s1.snakeBody = moveHead s.nextDirection front :: s.snakeBody := by rw [h1]
      rw [h4]; exact h3
  · intro r1 r2 later hfree2
    rw [heq (r1 :: r2 :: later)]
    exact ⟨_, spawnFood_accept r1 r2 later _ hfree2⟩

/-- Witness of C2: the tick from `demoStart` to `demoFed`. -/
theorem eating_grows_and_scores_witness :
    Reachable demoStart ∧ demoStart.gameOver = false ∧
      (1 : ℚ) - demoStart.lastUpdateTime > UPDATE_INTERVAL ∧
      demoStart.snakeBody = [⟨10, 10⟩] ∧
      moveHead demoStart.nextDirection ⟨10, 10⟩ = demoStart.foodPosition ∧
      (demoFed.score = demoStart.score + 1 ∧
        demoFed.snakeBody = moveHead demoStart.nextDirection ⟨10, 10⟩ :: demoStart.snakeBody ∧
        demoFed.snakeBody.length = demoStart.snakeBody.length + 1 ∧
        demoFed.gameOver = false ∧
        demoFed.foodPosition ∉ demoFed.snakeBody) :=
  ⟨reachable_demoStart, rfl, gate_demo, rfl, rfl,
    (eating_grows_and_scores demoStart 1 ⟨10, 10⟩ [] reachable_demoStart rfl gate_demo rfl
      rfl).1 [10, 10, 11, 10, 5, 7] demoFed update_game_demoStart⟩

/-- C3: on a non-empty snake, with the game running and the interval elapsed, `update_game`
sets `direction` to `nextDirection` and computes the new head as the old head moved one unit
that way (UP: y-1, DOWN: y+1, LEFT: x-1, RIGHT: x+1); when the new head is inside the grid, on
no cell of the old snake and not the food, the tick returns, the new snake is the new head
followed by the old snake without its last cell (same length), and the score, the food and
`gameOver` (false) are unchanged. -/
theorem plain_move (rs : List Nat) (t : ℚ) (s : GameState) (front : vec2) (rest : List vec2)
    (hgo : s.gameOver = false) (hgate : t - s.lastUpdateTime > UPDATE_INTERVAL)
    (hsn : s.snakeBody = front :: rest) :
    (∀ s1, update_game rs t s = some s1 → s1.direction = s.nextDirection) ∧
    (moveHead Direction.UP front = ⟨front.x, front.y - 1⟩ ∧
      moveHead Direction.DOWN front = ⟨front.x, front.y + 1⟩ ∧
      moveHead Direction.LEFT front = ⟨front.x - 1, front.y⟩ ∧
      moveHead Direction.RIGHT front = ⟨front.x + 1, front.y⟩) ∧
    (inGrid (moveHead s.nextDirection front) →
      moveHead s.nextDirection front ∉ s.snakeBody →
      moveHead s.nextDirection front ≠ s.foodPosition →
      ∃ s1, update_game rs t s = some s1 ∧
        s1.direction = s.nextDirection ∧
        s1.snakeBody = moveHead s.nextDirection front :: s.snakeBody.dropLast ∧
        s1.snakeBody.length = s.snakeBody.length ∧
        s1.score = s.score ∧ s1.foodPosition = s.foodPosition ∧ s1.gameOver = false ∧
        s1.nextDirection = s.nextDirection ∧ s1.lastUpdateTime = t) := by
  refine ⟨fun s1 h => (update_game_commits rs t s s1 front rest hgo hgate hsn h).1,
    ⟨rfl, rfl, rfl, rfl⟩, ?_⟩
  intro hin hfree hfood
  rw [← outOfGrid_eq_false_iff] at hin
  refine ⟨_, update_game_move rs t s front rest hgo hgate hsn hin hfree hfood, rfl, rfl, ?_,
    rfl, rfl, hgo, rfl, rfl⟩
  simp [hsn]

/-- Witness of C3: the coiled snake turning left instead of right moves to (4, 5). -/
theorem plain_move_witness :
    demoCoil.gameOver = false ∧ (1 : ℚ) - demoCoil.lastUpdateTime > UPDATE_INTERVAL ∧
      inGrid (moveHead Direction.LEFT ⟨5, 5⟩) ∧
      ∃ s1, update_game [] 1 { demoCoil with nextDirection := Direction.LEFT } = some s1 ∧
        s1.direction = Direction.LEFT ∧
        s1.snakeBody = [⟨4, 5⟩, ⟨5, 5⟩, ⟨5, 6⟩, ⟨6, 6⟩, ⟨6, 5⟩] ∧
        s1.snakeBody.length = 5 ∧
        s1.score = 4 ∧ s1.foodPosition = ⟨0, 0⟩ ∧ s1.gameOver = false ∧
        s1.nextDirection = Direction.LEFT ∧ s1.lastUpdateTime = 1 :=
  ⟨rfl, gate_demo, by decide,
    (plain_move [] 1 { demoCoil with nextDirection := Direction.LEFT } ⟨5, 5⟩
      [⟨5, 6⟩, ⟨6, 6⟩, ⟨6, 5⟩, ⟨6, 4⟩] rfl gate_demo rfl).2.2
      (by decide) (by decide) (by decide)⟩

/-- C4: with the game running and the interval elapsed, when the new head has x < 0,
x >= GRID_SIZE, y < 0 or y >= GRID_SIZE, the tick returns with `gameOver` true and with
`snakeBody`, `foodPosition` and `score` exactly as before: no head pushed, no tail removed. -/
theorem wall_ends_game (rs : List Nat) (t : ℚ) (s : GameState) (front : vec2)
    (rest : List vec2) (hgo : s.gameOver = false)
    (hgate : t - s.lastUpdateTime > UPDATE_INTERVAL) (hsn : s.snakeBody = front :: rest)
    (hout : (moveHead s.nextDirection front).x < 0 ∨
      (moveHead s.nextDirection front).x ≥ GRID_SIZE ∨
      (moveHead s.nextDirection front).y < 0 ∨
      (moveHead s.nextDirection front).y ≥ GRID_SIZE) :
    ∃ s1, update_game rs t s = some s1 ∧ s1.gameOver = true ∧
      s1.snakeBody = s.snakeBody ∧ s1.foodPosition = s.foodPosition ∧ s1.score = s.score :=
  ⟨_, update_game_crash rs t s front rest hgo hgate hsn (Or.inl ((outOfGrid_iff _).2 hout)),
    rfl, rfl, rfl, rfl⟩

/-- Witness of C4: a one-cell snake at (19, 10) heading right, food elsewhere. -/
theorem wall_ends_game_witness :
    ∃ s1, update_game [] 1 { demoStart with snakeBody := [⟨19, 10⟩] } = some s1 ∧
      s1.gameOver = true ∧ s1.snakeBody = [⟨19, 10⟩] ∧ s1.foodPosition = ⟨11, 10⟩ ∧
      s1.score = 0 :=
  wall_ends_game [] 1 { demoStart with snakeBody := [⟨19, 10⟩] } ⟨19, 10⟩ [] rfl gate_demo rfl
    (by decide)

/-- C5: with the game running and the interval elapsed, when the new head is a cell already
in `snakeBody`, the tick returns with `gameOver` true and with `snakeBody` (no push, no pop),
`score` and `foodPosition` unchanged. -/
theorem self_collision_ends_game (rs : List Nat) (t : ℚ) (s : GameState) (front : vec2)
    (rest : List vec2) (hgo : s.gameOver = false)
    (hgate : t - s.lastUpdateTime > UPDATE_INTERVAL) (hsn : s.snakeBody = front :: rest)
    (hmem : moveHead s.nextDirection front ∈ s.snakeBody) :
    ∃ s1, update_game rs t s = some s1 ∧ s1.gameOver = true ∧
      s1.snakeBody = s.snakeBody ∧ s1.score = s.score ∧ s1.foodPosition = s.foodPosition :=
  ⟨_, update_game_crash rs t s front rest hgo hgate hsn (Or.inr hmem), rfl, rfl, rfl, rfl⟩

/-- Witness of C5: the coiled snake of five cells turning right runs into its fourth cell. -/
theorem self_collision_ends_game_witness :
    4 ≤ demoCoil.snakeBody.length ∧
      moveHead demoCoil.nextDirection ⟨5, 5⟩ ∈ demoCoil.snakeBody ∧
      demoCoil.snakeBody.getLast? ≠ some (moveHead demoCoil.nextDirection ⟨5, 5⟩) ∧
      ∃ s1, update_game [] 1 demoCoil = some s1 ∧ s1.gameOver = true ∧
        s1.snakeBody = demoCoil.snakeBody ∧ s1.score = demoCoil.score ∧
        s1.foodPosition = demoCoil.foodPosition :=
  ⟨by decide, by decide, by decide,
    self_collision_ends_game [] 1 demoCoil ⟨5, 5⟩ [⟨5, 6⟩, ⟨6, 6⟩, ⟨6, 5⟩, ⟨6, 4⟩] rfl gate_demo
      rfl (by decide)⟩

/-- C6: a press handled while the game is running, mapping to the direction `d`, sets
`nextDirection` to `d` when `d` is not the reverse of `direction` and leaves it unchanged
otherwise; `direction`, `snakeBody`, `foodPosition`, `score`, `gameOver` (and
`lastUpdateTime`) are unchanged either way. In particular, when `direction` is `d`, a press
mapping to `d` followed by a press mapping to the reverse of `d` leaves `nextDirection` at
`d`. -/
theorem press_sets_pending_direction (rs : List Nat) (window : ANativeWindow)
    (event : AInputEvent) (s : GameState) (hact : event.action = AMOTION_EVENT_ACTION_DOWN)
    (hgo : s.gameOver = false) :
    (∃ s1, handle_input rs window event s = some s1 ∧
      (pressDirection window event ≠ reverse s.direction →
        s1.nextDirection = pressDirection window event) ∧
      (pressDirection window event = reverse s.direction →
        s1.nextDirection = s.nextDirection) ∧
      s1.direction = s.direction ∧ s1.snakeBody = s.snakeBody ∧
      s1.foodPosition = s.foodPosition ∧ s1.score = s.score ∧ s1.gameOver = s.gameOver ∧
      s1.lastUpdateTime = s.lastUpdateTime) ∧
    (∀ (rs2 : List Nat) (window2 : ANativeWindow) (event2 : AInputEvent),
      event2.action = AMOTION_EVENT_ACTION_DOWN →
      pressDirection window event = s.direction →
      pressDirection window2 event2 = reverse s.direction →
      ∃ s1 s2, handle_input rs window event s = some s1 ∧
        handle_input rs2 window2 event2 s1 = some s2 ∧ s2.nextDirection = s.direction) := by
  have h1 := handle_input_press rs window event s hact hgo
  constructor
  · refine ⟨_, h1, ?_, ?_, rfl, rfl, rfl, rfl, rfl, rfl⟩
    · intro hd
      simp only [hd, ne_eq, not_false_eq_true, if_true]
    · intro hd
      simp only [hd, ne_eq, not_true_eq_false, if_false]
  · intro rs2 window2 event2 hact2 hd hd2
    have hne : s.direction ≠ reverse s.direction := by
      cases s.direction <;> simp [reverse]
    refine ⟨_, _, h1, handle_input_press rs2 window2 event2 _ hact2 hgo, ?_⟩
    simp only [hd, hd2, ne_eq, hne, not_false_eq_true, not_true_eq_false, if_true, if_false]

/-- Witness of C6: from `demoStart` (heading right) a press to the right and then a press to
the left leave the pending direction at right. -/
theorem press_sets_pending_direction_witness :
    pressRight.action = AMOTION_EVENT_ACTION_DOWN ∧ demoStart.gameOver = false ∧
      pressDirection demoWindow pressRight = demoStart.direction ∧
      pressDirection demoWindow pressLeft = reverse demoStart.direction ∧
      ∃ s1 s2, handle_input [] demoWindow pressRight demoStart = some s1 ∧
        handle_input [] demoWindow pressLeft s1 = some s2 ∧
        s2.nextDirection = demoStart.direction :=
  ⟨rfl, rfl, pressDirection_pressRight, pressDirection_pressLeft,
    (press_sets_pending_direction [] demoWindow pressRight demoStart rfl rfl).2
      [] demoWindow pressLeft rfl pressDirection_pressRight pressDirection_pressLeft⟩

/-- C7: when `gameOver` is true, `update_game` at any clock value leaves the whole state
(snake, food, score, both directions, flag, `lastUpdateTime`) unchanged, so the flag stays
true through any number of ticks; an event that is not a press changes nothing either, and a
press runs `init_game`, the only operation that makes the flag false again. -/
theorem game_over_is_frozen (s : GameState) (hgo : s.gameOver = true) :
    (∀ (rs : List Nat) (t : ℚ), update_game rs t s = some s) ∧
    (∀ ticks : List (List Nat × ℚ), runTicks ticks s = some s) ∧
    (∀ (rs : List Nat) (window : ANativeWindow) (event : AInputEvent),
      event.action ≠ AMOTION_EVENT_ACTION_DOWN → handle_input rs window event s = some s) ∧
    (∀ (rs : List Nat) (window : ANativeWindow) (event : AInputEvent),
      event.action = AMOTION_EVENT_ACTION_DOWN →
      handle_input rs window event s = init_game rs s) ∧
    (∀ (rs : List Nat) (s1 : GameState), init_game rs s = some s1 → s1.gameOver = false) := by
  refine ⟨fun rs t => update_game_idle rs t s (Or.inl hgo), fun ticks =>
    runTicks_gameOver ticks s hgo, fun rs window event h =>
    handle_input_other rs window event s h, fun rs window event h =>
    handle_input_restart rs window event s h hgo, ?_⟩
  intro rs s1 h
  rw [(init_game_some rs s s1 h).1]

/-- Witness of C7: `demoFed` with the flag raised stays as it is through a tick at clock
value 1. -/
theorem game_over_is_frozen_witness :
    update_game [] 1 { demoFed with gameOver := true } = some { demoFed with gameOver := true } :=
  (game_over_is_frozen { demoFed with gameOver := true } rfl).1 [] 1

/-- C8: at a clock value with `currentTime - lastUpdateTime` not greater than
`UPDATE_INTERVAL`, `update_game` is a no-op in every state: the whole state is returned
unchanged. -/
theorem early_tick_is_noop (rs : List Nat) (currentTime : ℚ) (s : GameState)
    (h : ¬ (currentTime - s.lastUpdateTime > UPDATE_INTERVAL)) :
    update_game rs currentTime s = some s :=
  update_game_idle rs currentTime s (Or.inr h)

/-- Witness of C8: a tick one tenth of a second after the last update. -/
theorem early_tick_is_noop_witness :
    ¬ ((1 / 10 : ℚ) - demoStart.lastUpdateTime > UPDATE_INTERVAL) ∧
      update_game [] (1 / 10) demoStart = some demoStart :=
  ⟨gate_demo_early, early_tick_is_noop [] (1 / 10) demoStart gate_demo_early⟩

/-- C9: from every prior state, when `init_game` returns, the snake is the single cell
(GRID_SIZE/2, GRID_SIZE/2) = (10, 10), both directions are RIGHT, the score is 0, `gameOver` is
false and the food is a grid cell other than (10, 10); a second `init_game` returns the same
state up to the food cell, and exactly the same state on the same results of `rand()`. From
any state it returns as soon as a sample is not (10, 10). -/
theorem init_game_resets (rs : List Nat) (s0 s : GameState) (h : init_game rs s0 = some s) :
    s.snakeBody = [⟨GRID_SIZE / 2, GRID_SIZE / 2⟩] ∧ s.snakeBody = [⟨10, 10⟩] ∧
    s.direction = Direction.RIGHT ∧ s.nextDirection = Direction.RIGHT ∧
    s.score = 0 ∧ s.gameOver = false ∧
    inGrid s.foodPosition ∧ s.foodPosition ≠ ⟨10, 10⟩ ∧
    (∀ (rs2 : List Nat) (s2 : GameState), init_game rs2 s = some s2 →
      s2 = { s with foodPosition := s2.foodPosition } ∧
      inGrid s2.foodPosition ∧ s2.foodPosition ≠ ⟨10, 10⟩) ∧
    init_game rs s = some s ∧
    (∀ (p : GameState) (r1 r2 : Nat) (later : List Nat),
      ¬ ((r1 : Int) % 20 = 10 ∧ (r2 : Int) % 20 = 10) →
      ∃ s2, init_game (r1 :: r2 :: later) p = some s2) := by
  obtain ⟨h1, h2, h3⟩ := init_game_some rs s0 s h
  refine ⟨by rw [h1]; rfl, by rw [h1], by rw [h1], by rw [h1], by rw [h1], by rw [h1], h2, h3,
    ?_, ?_, ?_⟩
  · intro rs2 s2 hs2
    obtain ⟨k1, k2, k3⟩ := init_game_some rs2 s s2 hs2
    refine ⟨?_, k2, k3⟩
    rw [k1, h1]
  · rw [← h]
    exact init_game_forgets rs s s0 (by rw [h1])
  · intro p r1 r2 later hne
    refine ⟨_, spawnFood_accept r1 r2 later _ ?_⟩
    simp only [GRID_SIZE, List.mem_singleton, vec2.mk.injEq]
    exact hne

/-- Witness of C9: `init_game` at program start with `rand()` answering 11 and 10. -/
theorem init_game_resets_witness :
    init_game [11, 10] initialGlobals = some demoStart ∧
      demoStart.snakeBody = [⟨10, 10⟩] ∧ init_game [11, 10] demoStart = some demoStart :=
  ⟨init_game_demoStart,
    (init_game_resets [11, 10] initialGlobals demoStart init_game_demoStart).2.1,
    (init_game_resets [11, 10] initialGlobals demoStart init_game_demoStart).2.2.2.2.2.2.2.2.2.1⟩

/-- C10: from the state `init_game` produces, with no direction input and no food on the
cells (11..19, 10): after any ticks of which `k <= 9` pass the interval test the snake is the
single cell (10 + k, 10) and `gameOver` is false; the tenth passing tick sets `gameOver` with
the snake still [(19, 10)], and the flag and the snake stay so through all later ticks. -/
theorem straight_run_hits_right_wall (rs : List Nat) (s0 s : GameState)
    (hinit : init_game rs s0 = some s)
    (hfood : ∀ k : Int, 11 ≤ k → k ≤ 19 → s.foodPosition ≠ ⟨k, 10⟩) :
    (∀ ticks : List (List Nat × ℚ),
      qualifyingTicks s.lastUpdateTime (ticks.map Prod.snd) ≤ 9 →
      ∃ s1, runTicks ticks s = some s1 ∧
        s1.snakeBody =
          [⟨10 + (qualifyingTicks s.lastUpdateTime (ticks.map Prod.snd) : Int), 10⟩] ∧
        s1.gameOver = false) ∧
    (∀ ticks more : List (List Nat × ℚ),
      qualifyingTicks s.lastUpdateTime (ticks.map Prod.snd) = 10 →
      ∃ s1, runTicks (ticks ++ more) s = some s1 ∧
        s1.snakeBody = [⟨19, 10⟩] ∧ s1.gameOver = true) := by
  obtain ⟨h1, -, -⟩ := init_game_some rs s0 s hinit
  have hsn : s.snakeBody = [⟨10 + ((0 : Nat) : Int), 10⟩] := by rw [h1]; rfl
  have hnd : s.nextDirection = Direction.RIGHT := by rw [h1]
  have hgo : s.gameOver = false := by rw [h1]
  constructor
  · intro ticks hq
    have := (runTicks_row ticks s 0 hsn hnd hgo (by omega) hfood).1 (by omega)
    simpa using this
  · intro ticks more hq
    exact (runTicks_row ticks s 0 hsn hnd hgo (by omega) hfood).2 (by omega) more

/-- Witness of C10: the start state with the food at (3, 3) and one tick at clock value 1. -/
theorem straight_run_hits_right_wall_witness :
    init_game [3, 3] initialGlobals = some demoIdle ∧
      (∀ k : Int, 11 ≤ k → k ≤ 19 → demoIdle.foodPosition ≠ ⟨k, 10⟩) ∧
      ∃ s1, runTicks [([], 1)] demoIdle = some s1 ∧
        s1.snakeBody =
          [⟨10 + (qualifyingTicks demoIdle.lastUpdateTime
            (([([], 1)] : List (List Nat × ℚ)).map Prod.snd) : Int), 10⟩] ∧
        s1.gameOver = false :=
  ⟨init_game_demoIdle, demoIdle_food_off_row,
    (straight_run_hits_right_wall [3, 3] initialGlobals demoIdle init_game_demoIdle
      demoIdle_food_off_row).1 [([], 1)] qualifyingTicks_demo⟩

/-- C11: in every reachable state no two elements of `snakeBody` are the same cell. -/
theorem snake_cells_distinct (s : GameState) (h : Reachable s) : s.snakeBody.Nodup :=
  (wellFormed_of_reachable s h).nodup

/-- Witness of C11 on the state reached by one restart and one eating tick. -/
theorem snake_cells_distinct_witness : Reachable demoFed ∧ demoFed.snakeBody.Nodup :=
  ⟨reachable_demoFed, snake_cells_distinct demoFed reachable_demoFed⟩

/-- C12: for every snake and every sequence of results of `rand()` whose pairs, each value
reduced modulo `GRID_SIZE`, contain a cell the snake does not occupy, `spawnFood` returns and
has set `foodPosition` to the first such cell of the sequence (every cell sampled before it is
on the snake); that cell has both coordinates in `[0, GRID_SIZE)` and is no cell of the snake,
and `snakeBody`, like every other field, is unchanged. -/
theorem spawnFood_takes_first_free (rs : List Nat) (s : GameState)
    (h : ∃ c ∈ sampledCells rs, c ∉ s.snakeBody) :
    ∃ (before : List vec2) (c : vec2) (after : List vec2),
      sampledCells rs = before ++ c :: after ∧
      (∀ b ∈ before, b ∈ s.snakeBody) ∧
      c ∉ s.snakeBody ∧ inGrid c ∧
      spawnFood rs s = some { s with foodPosition := c } ∧
      (∀ s1, spawnFood rs s = some s1 → s1.snakeBody = s.snakeBody) := by
  obtain ⟨c0, hc0, hfree0⟩ := h
  cases hfind : (sampledCells rs).find? fun c => !hitsSegment c s.snakeBody with
  | none =>
    rw [List.find?_eq_none] at hfind
    have := hfind c0 hc0
    rw [Bool.not_eq_true, Bool.not_eq_false_eq_eq_true, hitsSegment_iff] at this
    exact absurd this hfree0
  | some c =>
    have hsp : spawnFood rs s = some { s with foodPosition := c } := by
      rw [spawnFood_eq_find, hfind]
      rfl
    rw [List.find?_eq_some] at hfind
    obtain ⟨hc, before, after, hsplit, hbefore⟩ := hfind
    have hfree : c ∉ s.snakeBody := by
      rw [← hitsSegment_eq_false_iff]
      simpa using hc
    refine ⟨before, c, after, hsplit, ?_, hfree, ?_, hsp, ?_⟩
    · intro b hb
      have := hbefore b hb
      rw [← hitsSegment_iff]
      simpa using this
    · apply mem_sampledCells_inGrid rs
      rw [hsplit]
      simp
    · intro s1 h1
      rw [hsp] at h1
      cases h1
      rfl

/-- Witness of C12: on the snake of `demoFed` the samples (10, 10), (11, 10), (5, 7), (1, 1)
place the food at (5, 7). -/
theorem spawnFood_takes_first_free_witness :
    ∃ (before : List vec2) (c : vec2) (after : List vec2),
      sampledCells [10, 10, 11, 10, 5, 7, 1, 1] = before ++ c :: after ∧
      (∀ b ∈ before, b ∈ demoFed.snakeBody) ∧
      c ∉ demoFed.snakeBody ∧ inGrid c ∧
      spawnFood [10, 10, 11, 10, 5, 7, 1, 1] demoFed = some { demoFed with foodPosition := c } ∧
      (∀ s1, spawnFood [10, 10, 11, 10, 5, 7, 1, 1] demoFed = some s1 →
        s1.snakeBody = demoFed.snakeBody) :=
  spawnFood_takes_first_free [10, 10, 11, 10, 5, 7, 1, 1] demoFed
    ⟨⟨5, 7⟩, by decide, by decide⟩

/-- C13 as stated fails: at the press (100 - 2^-17, 1400) in a window of 1080 by 1920 the
exact offsets are dX = -440 - 2^-17 and dY = 440, so the rule in exact arithmetic names LEFT;
the code rounds dX to -440, finds a tie, and `handle_input` stores DOWN. -/
theorem press_direction_not_exact :
    float.value pressOff.x = some (100 - 1 / 131072) ∧ float.value pressOff.y = some 1400 ∧
      exactDirection (100 - 1 / 131072) 1400 demoWindow.width demoWindow.height =
        Direction.LEFT ∧
      offsetX demoWindow pressOff = float.finite (-440 * 2 ^ 149) ∧
      offsetY demoWindow pressOff = float.finite (440 * 2 ^ 149) ∧
      pressDirection demoWindow pressOff ≠
        exactDirection (100 - 1 / 131072) 1400 demoWindow.width demoWindow.height ∧
      handle_input [] demoWindow pressOff demoStart =
        some { demoStart with nextDirection := Direction.DOWN } := by
  refine ⟨pressOff_value.1, pressOff_value.2, exactDirection_pressOff, offsets_pressOff.1,
    offsets_pressOff.2, ?_, ?_⟩
  · rw [pressDirection_pressOff, exactDirection_pressOff]
    decide
  · rw [handle_input_press [] demoWindow pressOff demoStart rfl rfl, pressDirection_pressOff]
    rfl

/-- C13, amended: for a press at (x, y) in a window of size (width, height) while the game is
running, with dX = x - width/2.0f and dY = y - height/2.0f as binary32 computes them (each
result rounded to nearest, ties to even), `handle_input` aims at RIGHT when |dX| > |dY| and
dX > 0, at LEFT when |dX| > |dY| and not dX > 0, at DOWN when not |dX| > |dY| and dY > 0, and
at UP when not |dX| > |dY| and not dY > 0: it stores that direction in `nextDirection` unless
`direction` is its reverse. So a tie |dX| = |dY| of the rounded offsets is vertical and a press
exactly at the centre aims at UP. On finite values "not a > b" is "a <= b", and a finite value minus itself is zero. -/
theorem press_maps_to_rounded_direction (rs : List Nat) (window : ANativeWindow)
    (event : AInputEvent) (s : GameState) (hact : event.action = AMOTION_EVENT_ACTION_DOWN)
    (hgo : s.gameOver = false) :
    (float.gt (float.abs (offsetX window event)) (float.abs (offsetY window event)) = true →
      float.gt (offsetX window event) (float.finite 0) = true →
      handle_input rs window event s =
        some (if s.direction ≠ Direction.LEFT then { s with nextDirection := Direction.RIGHT }
          else s)) ∧
    (float.gt (float.abs (offsetX window event)) (float.abs (offsetY window event)) = true →
      float.gt (offsetX window event) (float.finite 0) = false →
      handle_input rs window event s =
        some (if s.direction ≠ Direction.RIGHT then { s with nextDirection := Direction.LEFT }
          else s)) ∧
    (float.gt (float.abs (offsetX window event)) (float.abs (offsetY window event)) = false →
      float.gt (offsetY window event) (float.finite 0) = true →
      handle_input rs window event s =
        some (if s.direction ≠ Direction.UP then { s with nextDirection := Direction.DOWN }
          else s)) ∧
    (float.gt (float.abs (offsetX window event)) (float.abs (offsetY window event)) = false →
      float.gt (offsetY window event) (float.finite 0) = false →
      handle_input rs window event s =
        some (if s.direction ≠ Direction.DOWN then { s with nextDirection := Direction.UP }
          else s)) ∧
    (float.abs (offsetX window event) = float.abs (offsetY window event) →
      float.gt (float.abs (offsetX window event)) (float.abs (offsetY window event)) = false) ∧
    (offsetX window event = float.finite 0 → offsetY window event = float.finite 0 →
      handle_input rs window event s =
        some (if s.direction ≠ Direction.DOWN then { s with nextDirection := Direction.UP }
          else s)) ∧
    (∀ a b : Int, (float.gt (float.finite a) (float.finite b) = true ↔ a > b) ∧
      (float.gt (float.finite a) (float.finite b) = false ↔ a ≤ b) ∧
      float.abs (float.finite a) = float.finite |a| ∧
      float.sub (float.finite a) (float.finite a) = float.finite 0) := by
  have hx : float.sub event.x (float.halve (int_to_float window.width)) =
      offsetX window event := rfl
  have hy : float.sub event.y (float.halve (int_to_float window.height)) =
      offsetY window event := rfl
  have hirr : ∀ f : float, float.gt f f = false := by
    intro f
    cases f with
    | finite k => simp [float.gt]
    | inf negative => cases negative <;> rfl
    | nan => rfl
  refine ⟨?_, ?_, ?_, ?_, ?_, ?_, ?_⟩
  · intro hxy h0
    simp only [handle_input, hact, hgo, if_true, Bool.false_eq_true, if_false, hx, hy, hxy, h0]
    split_ifs <;> rfl
  · intro hxy h0
    simp only [handle_input, hact, hgo, if_true, Bool.false_eq_true, if_false, hx, hy, hxy, h0]
    split_ifs <;> rfl
  · intro hxy h0
    simp only [handle_input, hact, hgo, if_true, Bool.false_eq_true, if_false, hx, hy, hxy, h0]
    split_ifs <;> rfl
  · intro hxy h0
    simp only [handle_input, hact, hgo, if_true, Bool.false_eq_true, if_false, hx, hy, hxy, h0]
    split_ifs <;> rfl
  · intro he
    rw [he]
    exact hirr _
  · intro hx0 hy0
    have hxy : float.gt (float.abs (offsetX window event)) (float.abs (offsetY window event)) =
        false := by rw [hx0, hy0]; exact hirr _
    have h0 : float.gt (offsetY window event) (float.finite 0) = false := by
      rw [hy0]; exact hirr _
    simp only [handle_input, hact, hgo, if_true, Bool.false_eq_true, if_false, hx, hy, hxy, h0]
    split_ifs <;> rfl
  · intro a b
    refine ⟨by simp [float.gt], by simp [float.gt], ?_, ?_⟩
    · simp [float.abs, Int.natCast_natAbs]
    · simp [float.sub, float.round, roundSig24, bitLength]

/-- Witness of C13: a tie press below and right of the centre, on a snake heading right, sets
the pending direction to DOWN. -/
theorem press_maps_to_rounded_direction_witness :
    pressTie.action = AMOTION_EVENT_ACTION_DOWN ∧ demoStart.gameOver = false ∧
      handle_input [] demoWindow pressTie demoStart =
        some (if demoStart.direction ≠ Direction.UP then
          { demoStart with nextDirection := Direction.DOWN } else demoStart) :=
  ⟨rfl, rfl,
    (press_maps_to_rounded_direction [] demoWindow pressTie demoStart rfl rfl).2.2.1
      pressTie_is_tie pressTie_is_below⟩

/-- C14: `spawnFood` can return only while a free cell exists. When the snake occupies every
cell of the grid, it returns for no sequence of results of `rand()`, however long: every
sample is rejected. When some grid cell is free, there is a sequence on which it returns. -/
theorem spawnFood_needs_free_cell (s : GameState) :
    ((∀ c, inGrid c → c ∈ s.snakeBody) → ∀ rs, spawnFood rs s = none) ∧
    ((∃ c, inGrid c ∧ c ∉ s.snakeBody) → ∃ rs s1, spawnFood rs s = some s1) := by
  constructor
  · intro hfull rs
    cases h : spawnFood rs s with
    | none => rfl
    | some s1 =>
      obtain ⟨-, h2, h3⟩ := spawnFood_some rs s s1 h
      exact absurd (hfull _ h2) h3
  · rintro ⟨c, hc, hfree⟩
    obtain ⟨x, y⟩ := c
    simp only [inGrid, GRID_SIZE] at hc
    have e : (⟨((x.toNat : Nat) : Int) % GRID_SIZE, ((y.toNat : Nat) : Int) % GRID_SIZE⟩ : vec2) =
        ⟨x, y⟩ := by
      simp only [GRID_SIZE, vec2.mk.injEq]
      omega
    refine ⟨[x.toNat, y.toNat], _, spawnFood_accept x.toNat y.toNat [] s ?_⟩
    rw [e]
    exact hfree

/-- Witness of C14: on the snake that covers the grid the samples (3, 4), (0, 0) are both
rejected, and on the one-cell snake of `demoStart` some sequence is accepted. -/
theorem spawnFood_needs_free_cell_witness :
    spawnFood [3, 4, 0, 0] demoFull = none ∧ ∃ rs s1, spawnFood rs demoStart = some s1 :=
  ⟨(spawnFood_needs_free_cell demoFull).1 mem_fullGrid [3, 4, 0, 0],
    (spawnFood_needs_free_cell demoStart).2 ⟨⟨0, 0⟩, by decide, by decide⟩⟩

/-- C15: the self-collision check compares the new head with every cell of the snake, the
current tail included: with the game running, the interval elapsed and a snake (of two
cells or more, or of any length) whose new head is the last element of `snakeBody`, the cell
the tail would leave on a plain move, `update_game` returns with `gameOver` true and
`snakeBody` unchanged. -/
theorem tail_counts_as_collision (rs : List Nat) (t : ℚ) (s : GameState) (front : vec2)
    (rest : List vec2) (hgo : s.gameOver = false)
    (hgate : t - s.lastUpdateTime > UPDATE_INTERVAL) (hsn : s.snakeBody = front :: rest)
    (hlast : s.snakeBody.getLast? = some (moveHead s.nextDirection front)) :
    ∃ s1, update_game rs t s = some s1 ∧ s1.gameOver = true ∧ s1.snakeBody = s.snakeBody :=
  ⟨_, update_game_crash rs t s front rest hgo hgate hsn
    (Or.inr (List.mem_of_getLast?_eq_some hlast)), rfl, rfl⟩

/-- Witness of C15: the snake [(0,0),(1,0),(1,1),(0,1)] moving DOWN. -/
theorem tail_counts_as_collision_witness :
    demoSquare.snakeBody = [⟨0, 0⟩, ⟨1, 0⟩, ⟨1, 1⟩, ⟨0, 1⟩] ∧
      demoSquare.nextDirection = Direction.DOWN ∧ 2 ≤ demoSquare.snakeBody.length ∧
      demoSquare.snakeBody.getLast? = some (moveHead demoSquare.nextDirection ⟨0, 0⟩) ∧
      ∃ s1, update_game [] 1 demoSquare = some s1 ∧ s1.gameOver = true ∧
        s1.snakeBody = demoSquare.snakeBody :=
  ⟨rfl, rfl, by decide, by decide,
    tail_counts_as_collision [] 1 demoSquare ⟨0, 0⟩ [⟨1, 0⟩, ⟨1, 1⟩, ⟨0, 1⟩] rfl gate_demo rfl
      (by decide)⟩

/-- C16: in every reachable state `nextDirection` is not the reverse of `direction`; so the
direction a tick commits is never the reverse of the one the previous tick committed, and for
a snake of two cells or more the new head is never the second cell of `snakeBody`. -/
theorem pending_never_reverses (s : GameState) (h : Reachable s) :
    s.nextDirection ≠ reverse s.direction ∧
    (∀ (rs : List Nat) (t : ℚ) (s1 : GameState), s.gameOver = false →
      t - s.lastUpdateTime > UPDATE_INTERVAL → update_game rs t s = some s1 →
      s1.direction = s.nextDirection ∧ s1.direction ≠ reverse s.direction) ∧
    (∀ (front second : vec2) (rest : List vec2), s.snakeBody = front :: second :: rest →
      moveHead s.nextDirection front ≠ second) := by
  have hs := steered_of_reachable s h
  have hw := wellFormed_of_reachable s h
  refine ⟨hs.noReverse, ?_, hs.noTurnBack⟩
  intro rs t s1 hgo hgate h1
  obtain ⟨front, rest, hsn⟩ := List.exists_cons_of_ne_nil hw.nonempty
  have hd := (update_game_commits rs t s s1 front rest hgo hgate hsn h1).1
  exact ⟨hd, hd ▸ hs.noReverse⟩

/-- Witness of C16 on the state reached by one restart and one eating tick: the next head
(12, 10) is not the second cell (10, 10). -/
theorem pending_never_reverses_witness :
    Reachable demoFed ∧ demoFed.nextDirection ≠ reverse demoFed.direction ∧
      moveHead demoFed.nextDirection ⟨11, 10⟩ ≠ ⟨10, 10⟩ :=
  ⟨reachable_demoFed, (pending_never_reverses demoFed reachable_demoFed).1,
    (pending_never_reverses demoFed reachable_demoFed).2.2 ⟨11, 10⟩ ⟨10, 10⟩ [] rfl⟩

/-- C17: in every reachable state `snakeBody` is non-empty, so `snakeBody.front()` in
`update_game` reads a cell (and `pop_back` follows a `push_front`): a tick fails to return
only when it eats and `spawnFood` does not return. -/
theorem snake_never_empty (s : GameState) (h : Reachable s) :
    s.snakeBody ≠ [] ∧ (∃ front, s.snakeBody.head? = some front) ∧
    (∀ (rs : List Nat) (t : ℚ), update_game rs t s = none →
      ∃ front, s.snakeBody.head? = some front ∧
        moveHead s.nextDirection front = s.foodPosition ∧
        spawnFood rs { s with
          lastUpdateTime := t
          direction := s.nextDirection
          snakeBody := moveHead s.nextDirection front :: s.snakeBody
          score := wrapInt32 (s.score + 1) } = none) := by
  have hw := wellFormed_of_reachable s h
  obtain ⟨front, rest, hsn⟩ := List.exists_cons_of_ne_nil hw.nonempty
  refine ⟨hw.nonempty, ⟨front, by rw [hsn]; rfl⟩, ?_⟩
  intro rs t hnone
  refine ⟨front, by rw [hsn]; rfl, ?_⟩
  by_cases hidle : s.gameOver = true ∨ ¬ (t - s.lastUpdateTime > UPDATE_INTERVAL)
  · rw [update_game_idle rs t s hidle] at hnone
    cases hnone
  · rw [not_or, not_not] at hidle
    obtain ⟨hgo, hgate⟩ := hidle
    rw [Bool.not_eq_true] at hgo
    by_cases hbad : outOfGrid (moveHead s.nextDirection front) = true ∨
        moveHead s.nextDirection front ∈ s.snakeBody
    · rw [update_game_crash rs t s front rest hgo hgate hsn hbad] at hnone
      cases hnone
    · rw [not_or, Bool.not_eq_true] at hbad
      obtain ⟨hin, hfree⟩ := hbad
      by_cases hfood : moveHead s.nextDirection front = s.foodPosition
      · rw [update_game_eat rs t s front rest hgo hgate hsn hin hfree hfood] at hnone
        exact ⟨hfood, hnone⟩
      · rw [update_game_move rs t s front rest hgo hgate hsn hin hfree hfood] at hnone
        cases hnone

/-- Witness of C17 on the state reached by one restart and one eating tick. -/
theorem snake_never_empty_witness : Reachable demoFed ∧ demoFed.snakeBody ≠ [] :=
  ⟨reachable_demoFed, (snake_never_empty demoFed reachable_demoFed).1⟩

/-- C18: in every reachable state every cell of `snakeBody` and `foodPosition` have both
coordinates in `[0, GRID_SIZE)`, that is 0 <= x < 20 and 0 <= y < 20, and the snake has at most
400 cells. -/
theorem cells_stay_in_grid (s : GameState) (h : Reachable s) :
    (∀ c ∈ s.snakeBody, 0 ≤ c.x ∧ c.x < 20 ∧ 0 ≤ c.y ∧ c.y < 20) ∧
    (0 ≤ s.foodPosition.x ∧ s.foodPosition.x < 20 ∧
      0 ≤ s.foodPosition.y ∧ s.foodPosition.y < 20) ∧
    (∀ c ∈ s.snakeBody, inGrid c) ∧ inGrid s.foodPosition ∧
    s.snakeBody.length ≤ 400 := by
  have hw := wellFormed_of_reachable s h
  exact ⟨hw.snakeInGrid, hw.foodInGrid, hw.snakeInGrid, hw.foodInGrid,
    length_le_of_nodup_inGrid s.snakeBody hw.nodup hw.snakeInGrid⟩

/-- Witness of C18 on the state reached by one restart and one eating tick. -/
theorem cells_stay_in_grid_witness :
    Reachable demoFed ∧ inGrid demoFed.foodPosition ∧ demoFed.snakeBody.length ≤ 400 :=
  ⟨reachable_demoFed, (cells_stay_in_grid demoFed reachable_demoFed).2.2.2.1,
    (cells_stay_in_grid demoFed reachable_demoFed).2.2.2.2⟩

/-- C19: in every reachable state the length of `snakeBody` is `score + 1`: the score counts
the cells grown since the last reset, and is never negative. -/
theorem length_is_score_plus_one (s : GameState) (h : Reachable s) :
    (s.snakeBody.length : Int) = s.score + 1 ∧ 0 ≤ s.score := by
  have hsc : s.score + 1 = (s.snakeBody.length : Int) :=
    (wellFormed_of_reachable s h).scoreLength
  have hlen : (0 : Int) ≤ (s.snakeBody.length : Int) := Int.ofNat_nonneg _
  have hpos : 0 < s.snakeBody.length :=
    List.length_pos.2 (wellFormed_of_reachable s h).nonempty
  refine ⟨hsc.symm, ?_⟩
  omega

/-- Witness of C19 on the state reached by one restart and one eating tick. -/
theorem length_is_score_plus_one_witness :
    Reachable demoFed ∧ (demoFed.snakeBody.length : Int) = demoFed.score + 1 :=
  ⟨reachable_demoFed, (length_is_score_plus_one demoFed reachable_demoFed).1⟩

/-- C20: in every reachable state every two consecutive cells of `snakeBody` are
grid-adjacent: they differ by exactly 1 in exactly one coordinate and are equal in the
other. -/
theorem consecutive_cells_adjacent (s : GameState) (h : Reachable s) :
    s.snakeBody.Chain' adjacent ∧
    (∀ (before : List vec2) (a b : vec2) (after : List vec2),
      s.snakeBody = before ++ a :: b :: after →
      (a.x = b.x ∧ (a.y = b.y + 1 ∨ b.y = a.y + 1)) ∨
        (a.y = b.y ∧ (a.x = b.x + 1 ∨ b.x = a.x + 1))) := by
  have hc := (steered_of_reachable s h).chain
  refine ⟨hc, ?_⟩
  intro before a b after hsplit
  have hinfix : [a, b] <:+: s.snakeBody := ⟨before, after, by rw [hsplit]; simp⟩
  have := hc.infix hinfix
  rw [List.chain'_pair] at this
  exact this

/-- Witness of C20 on the state reached by one restart and one eating tick: (11, 10) and
(10, 10) are adjacent. -/
theorem consecutive_cells_adjacent_witness :
    Reachable demoFed ∧
      (((⟨11, 10⟩ : vec2).x = (⟨10, 10⟩ : vec2).x ∧
          ((⟨11, 10⟩ : vec2).y = (⟨10, 10⟩ : vec2).y + 1 ∨
            (⟨10, 10⟩ : vec2).y = (⟨11, 10⟩ : vec2).y + 1)) ∨
        ((⟨11, 10⟩ : vec2).y = (⟨10, 10⟩ : vec2).y ∧
          ((⟨11, 10⟩ : vec2).x = (⟨10, 10⟩ : vec2).x + 1 ∨
            (⟨10, 10⟩ : vec2).x = (⟨11, 10⟩ : vec2).x + 1))) :=
  ⟨reachable_demoFed,
    (consecutive_cells_adjacent demoFed reachable_demoFed).2 [] ⟨11, 10⟩ ⟨10, 10⟩ [] rfl⟩

end VulkanSnake
